import Mathlib

/-
Verification of the Azure DevOps service adapter
(src/openhands/integrations/azure_devops/azure_devops_service.py).

The Python module is shallowly embedded:
  * Python exceptions become the type PyErr; every constructor models a
    subclass of Exception, so a bare except-Exception handler catches all
    of them.
  * JSON bodies returned by the HTTP layer become the inductive JVal.
  * The HTTP layer is an oracle (a function from requests to either a
    typed error or a JSON body); issued requests are recorded in a trace,
    so the statement that a method makes no network call is expressible.
  * CPython salts the hash of a nonempty string with a per-process seed
    (hash randomization); the builtin hash is therefore modelled as a
    per-run parameter (structure PyRun).
  * Python string operations used by the module (split, rstrip, replace,
    in, join, lower, urllib quote) are modelled at character-list level.
Types imported by the module from openhands.integrations.service_types
(Repository, Branch, User, SuggestedTask, ProviderType, TaskType,
AuthenticationError) are not part of the sources; they are modelled from
the specification, which gives their exact field lists.
-/

set_option autoImplicit false
set_option linter.unusedVariables false

namespace AzureDevOps

/-- PyErr models the Python exceptions that can arise in the module.  All
constructors model subclasses of Exception, hence all are caught by the
bare except-Exception handlers the module uses.  The authError
constructor models openhands AuthenticationError, httpStatusError the
typed API error produced by handle_http_status_error, and httpConnError
the typed connectivity error produced by handle_http_error. -/
inductive PyErr where
  | authError (msg : String)
  | httpStatusError (status : Nat)
  | httpConnError
  | valueError (msg : String)
  | validationError
  | indexError
  | attributeError
  | typeError
  | keyError
  deriving DecidableEq

/-- JVal models a decoded JSON body (Python object produced by
response.json()). -/
inductive JVal where
  | str (s : String)
  | num (n : Int)
  | bool (b : Bool)
  | null
  | arr (xs : List JVal)
  | obj (kvs : List (String × JVal))

namespace PyStr

/-- Model of str.split(sep) for a one-character separator, on character
lists: Python splits on every occurrence and keeps empty pieces. -/
def splitCh (sep : Char) : List Char → List (List Char)
  | [] => [[]]
  | c :: cs =>
    if c = sep then [] :: splitCh sep cs
    else
      match splitCh sep cs with
      | [] => [[c]]
      | g :: gs => (c :: g) :: gs

/-- Model of str.rstrip taking away trailing slash characters. -/
def rstripSlash (l : List Char) : List Char :=
  (l.reverse.dropWhile (fun c => c = '/')).reverse

/-- Finds the first occurrence of a nonempty separator, returning the
pieces before and after it. -/
def findSub (sep : List Char) : List Char → Option (List Char × List Char)
  | [] => if sep = [] then some ([], []) else none
  | c :: cs =>
    if sep.isPrefixOf (c :: cs) then some ([], (c :: cs).drop sep.length)
    else
      match findSub sep cs with
      | some (pre, post) => some (c :: pre, post)
      | none => none

/-- Model of str.split(sep, 1): at most one split, at the first
occurrence of the separator. -/
def splitOnce (sep : List Char) (l : List Char) : List (List Char) :=
  match findSub sep l with
  | some (pre, post) => [pre, post]
  | none => [l]

/-- Model of the substring test (Python operator in on two strings).
An empty needle is contained in every string. -/
def substrCh (needle hay : List Char) : Bool :=
  match hay with
  | [] => needle.isEmpty
  | _ :: t => needle.isPrefixOf hay || substrCh needle t

/-- Model of str.replace(pat, repl) with a nonempty pattern:
non-overlapping replacement, scanning left to right.  The extra fuel
argument makes the recursion structural; each step consumes at least one
character, so fuel equal to the input length (supplied by pyReplaceL)
never runs out and the fallthrough case is unreachable. -/
def replaceCh (pat repl : List Char) : Nat → List Char → List Char
  | _, [] => []
  | 0, l => l
  | fuel + 1, c :: cs =>
    if pat.isPrefixOf (c :: cs) ∧ pat ≠ [] then
      repl ++ replaceCh pat repl fuel (cs.drop (pat.length - 1))
    else
      c :: replaceCh pat repl fuel cs

/-- Model of str.replace(pat, repl), covering the empty-pattern case the
Python builtin accepts (repl is inserted before every character and at
the end). -/
def pyReplaceL (pat repl l : List Char) : List Char :=
  if pat = [] then repl ++ (l.flatMap (fun c => [c] ++ repl))
  else replaceCh pat repl l.length l

/-- String wrapper for pyReplaceL. -/
def pyReplace (s pat repl : String) : String :=
  String.mk (pyReplaceL pat.data repl.data s.data)

/-- String wrapper for substrCh. -/
def substrOf (needle hay : String) : Bool :=
  substrCh needle.data hay.data

/-- String wrapper for splitCh. -/
def pySplit (s : String) (sep : Char) : List String :=
  (splitCh sep s.data).map String.mk

/-- Python list.index for the first occurrence (the callers guard with a
membership test, so 0 stands in for the impossible not-found case). -/
def listIndex (l : List String) (x : String) : Nat :=
  match l with
  | [] => 0
  | h :: t => if h = x then 0 else listIndex t x + 1

end PyStr

namespace JVal

/-- Model of Python dict.get(key, default): succeeds on a dict (first
binding wins; real dicts have unique keys), raises AttributeError when
the receiver is not a dict. -/
def pyGet : JVal → String → JVal → Except PyErr JVal
  | .obj kvs, k, d => .ok ((kvs.lookup k).getD d)
  | _, _, _ => .error .attributeError

/-- Model of Python subscription v[key] with a string key: KeyError when
the key is absent, TypeError when the receiver is not a dict. -/
def pySubscript : JVal → String → Except PyErr JVal
  | .obj kvs, k =>
    match kvs.lookup k with
    | some v => .ok v
    | none => .error .keyError
  | _, _ => .error .typeError

/-- Model of Python iteration (a for loop over the value): lists yield
their elements, strings their characters, dicts their keys; numbers,
booleans and None raise TypeError. -/
def pyIter : JVal → Except PyErr (List JVal)
  | .arr xs => .ok xs
  | .str s => .ok (s.data.map (fun c => .str (String.mk [c])))
  | .obj kvs => .ok (kvs.map (fun kv => .str kv.1))
  | _ => .error .typeError

/-- Model of Python truthiness for the JSON values involved. -/
def truthy : JVal → Bool
  | .str s => s ≠ ""
  | .num n => n ≠ 0
  | .bool b => b
  | .null => false
  | .arr xs => !xs.isEmpty
  | .obj kvs => !kvs.isEmpty

mutual

/-- Model of Python repr for decoded JSON values (string quoting is
modelled without escape processing; the module never relies on it). -/
def pyRepr : JVal → String
  | .str s => "\x27" ++ s ++ "\x27"
  | .num n => toString n
  | .bool true => "True"
  | .bool false => "False"
  | .null => "None"
  | .arr xs => "[" ++ String.intercalate ", " (pyReprList xs) ++ "]"
  | .obj kvs => "\x7b" ++ String.intercalate ", " (pyReprKVs kvs) ++ "\x7d"

/-- Renders the elements of a JSON list. -/
def pyReprList : List JVal → List String
  | [] => []
  | x :: xs => pyRepr x :: pyReprList xs

/-- Renders the bindings of a JSON object. -/
def pyReprKVs : List (String × JVal) → List String
  | [] => []
  | kv :: xs => ("\x27" ++ kv.1 ++ "\x27: " ++ pyRepr kv.2) :: pyReprKVs xs

end

/-- Model of Python str() as used inside f-string interpolation. -/
def pyStr : JVal → String
  | .str s => s
  | j => pyRepr j

/-- Model of the Python substring test needle in v: substring test on a
string receiver, membership on a list, key membership on a dict,
TypeError otherwise. -/
def pyInStr (needle : String) : JVal → Except PyErr Bool
  | .str hay => .ok (PyStr.substrOf needle hay)
  | .arr xs => .ok (xs.any (fun x => match x with | .str s => s = needle | _ => false))
  | .obj kvs => .ok (kvs.any (fun kv => kv.1 = needle))
  | _ => .error .typeError

/-- Model of str.split for a value that must be a string (AttributeError
otherwise, as for the missing split attribute in Python). -/
def pySplitJ : JVal → Char → Except PyErr (List String)
  | .str s, sep => .ok (PyStr.pySplit s sep)
  | _, _ => .error .attributeError

/-- Model of str.replace on a value that must be a string. -/
def pyReplaceJ : JVal → String → String → Except PyErr String
  | .str s, pat, repl => .ok (PyStr.pyReplace s pat repl)
  | _, _, _ => .error .attributeError

end JVal

/-- PyRun models the per-process state of the CPython interpreter that
the module observes: the builtin hash is salted for strings (hash
randomization, PYTHONHASHSEED), and the hash of None is an
implementation constant.  Two program executions are two values of this
type. -/
structure PyRun where
  strHash : String → Int
  noneHash : Int

/-- Model of the builtin hash on the JSON values the module can feed it:
strings use the per-run salted string hash, integers hash to themselves
(exact for the magnitudes involved), booleans to 0 and 1, None to a
per-run constant; lists and dicts are unhashable (TypeError). -/
def pyHashJ (run : PyRun) : JVal → Except PyErr Int
  | .str s => .ok (run.strHash s)
  | .num n => .ok n
  | .bool b => .ok (if b then 1 else 0)
  | .null => .ok run.noneHash
  | .arr _ => .error .typeError
  | .obj _ => .error .typeError

/-- Digit-list parser: a nonempty run of decimal digits. -/
def parseDigits (acc : Nat) : List Char → Option Nat
  | [] => some acc
  | c :: cs => if c.isDigit then parseDigits (acc * 10 + (c.toNat - 48)) cs else none

/-- Model of the Python int conversion of a string: optional sign, then
one or more decimal digits. -/
def pyIntOfString (s : String) : Option Int :=
  match s.data with
  | [] => none
  | '-' :: ds =>
    if ds = [] then none else (parseDigits 0 ds).map (fun n => -(n : Int))
  | '+' :: ds =>
    if ds = [] then none else (parseDigits 0 ds).map (fun n => (n : Int))
  | ds => (parseDigits 0 ds).map (fun n => (n : Int))

/-- Model of pydantic coercion to an int field: ints pass, numeric
strings are coerced, everything else is a validation error. -/
def pydanticInt : JVal → Except PyErr Int
  | .num n => .ok n
  | .str s =>
    match pyIntOfString s with
    | some n => .ok n
    | none => .error .validationError
  | _ => .error .validationError

/-- Model of pydantic coercion to a str field: only strings pass. -/
def pydanticStr : JVal → Except PyErr String
  | .str s => .ok s
  | _ => .error .validationError

/-- Modelled from the spec: the provider enum, fixed to one value for
this module (openhands service_types is not among the sources). -/
inductive ProviderType where
  | AZURE_DEVOPS
  | other
  deriving DecidableEq

/-- Modelled from the spec: the generic task category enum; the mapper
in this module only ever produces OPEN_ISSUE. -/
inductive TaskType where
  | OPEN_ISSUE
  | OPEN_PR
  deriving DecidableEq

/-- Modelled from the spec: Repository is id (integer), full_name
(string, org/project/repo), provider enum and is_public boolean. -/
structure Repository where
  id : Int
  full_name : String
  git_provider : ProviderType
  is_public : Bool
  deriving DecidableEq

/-- Modelled from the spec: Branch is name, commit_sha and the protected
boolean (the last field is renamed protected_flag because protected is a
reserved word here). -/
structure Branch where
  name : String
  commit_sha : String
  protected_flag : Bool
  deriving DecidableEq

/-- Modelled from the spec: User is id (integer), login, avatar_url,
name and email (strings). -/
structure User where
  id : Int
  login : String
  avatar_url : String
  name : String
  email : String
  deriving DecidableEq

/-- Modelled from the spec: SuggestedTask is provider enum, task_type
enum, repo (string, org/project/repo), issue_number (integer), title. -/
structure SuggestedTask where
  git_provider : ProviderType
  task_type : TaskType
  repo : String
  issue_number : Int
  title : String
  deriving DecidableEq

/-- HTTP method of a request, as in openhands RequestMethod. -/
inductive RequestMethod where
  | GET
  | POST
  deriving DecidableEq

/-- Model of Python list indexing l[i] for nonnegative i: IndexError
past the end. -/
def pyIndexL {α : Type} (l : List α) (i : Nat) : Except PyErr α :=
  match l.get? i with
  | some x => .ok x
  | none => .error .indexError

/-- UTF-8 encoding of one character, byte values as naturals. -/
def utf8Bytes (c : Char) : List Nat :=
  let n := c.toNat
  if n < 0x80 then [n]
  else if n < 0x800 then [0xC0 + n / 0x40, 0x80 + n % 0x40]
  else if n < 0x10000 then
    [0xE0 + n / 0x1000, 0x80 + n / 0x40 % 0x40, 0x80 + n % 0x40]
  else
    [0xF0 + n / 0x40000, 0x80 + n / 0x1000 % 0x40, 0x80 + n / 0x40 % 0x40,
      0x80 + n % 0x40]

/-- Alphabet digit of standard base64. -/
def b64digit (n : Nat) : Char :=
  ("ABCDEFGHIJKLMNOPQRSTUVWXYZabcdefghijklmnopqrstuvwxyz0123456789+/").data.getD n 'A'

/-- Standard base64 of a byte list, with padding, as used by
base64.b64encode. -/
def base64Encode : List Nat → String
  | a :: b :: c :: rest =>
    let w := a * 0x10000 + b * 0x100 + c
    String.mk [b64digit (w / 0x40000), b64digit (w / 0x1000 % 0x40),
      b64digit (w / 0x40 % 0x40), b64digit (w % 0x40)] ++ base64Encode rest
  | [a, b] =>
    let w := a * 0x10000 + b * 0x100
    String.mk [b64digit (w / 0x40000), b64digit (w / 0x1000 % 0x40),
      b64digit (w / 0x40 % 0x40), '=']
  | [a] =>
    let w := a * 0x10000
    String.mk [b64digit (w / 0x40000), b64digit (w / 0x1000 % 0x40), '=', '=']
  | [] => ""

/-- Hexadecimal digit, upper case, for percent encoding. -/
def hexDigit (n : Nat) : Char :=
  ("0123456789ABCDEF").data.getD n '0'

/-- Percent encoding of one byte. -/
def quoteByte (b : Nat) : List Char :=
  ['%', hexDigit (b / 16), hexDigit (b % 16)]

/-- Model of urllib.parse.quote on one character with the default safe
set (ASCII alphanumerics, underscore, dot, hyphen, tilde and slash). -/
def quoteChar (c : Char) : List Char :=
  if c.isAlpha ∨ c.isDigit ∨ c = '_' ∨ c = '.' ∨ c = '-' ∨ c = '~' ∨ c = '/' then [c]
  else (utf8Bytes c).flatMap quoteByte

/-- Model of urllib.parse.quote with its default safe characters. -/
def pyQuote (s : String) : String :=
  String.mk (s.data.flatMap quoteChar)

/-- Model of urllib.parse.urlparse(url).hostname for the URLs this
module feeds it: the authority is the part between the first scheme
separator and the next slash, question mark or hash; userinfo before an
at sign and a port after a colon are removed and the result is
lowercased; a URL without a scheme separator has no hostname. -/
def urlHostname (url : String) : Option String :=
  match PyStr.findSub [':', '/', '/'] url.data with
  | none => none
  | some (_, rest) =>
    let netloc := rest.takeWhile (fun c => !(c == '/' || c == '?' || c == '#'))
    let afterAt := (PyStr.splitCh '@' netloc).getLastD netloc
    let hostPort := afterAt.takeWhile (fun c => !(c == ':'))
    if hostPort = [] then none else some (String.mk (hostPort.map Char.toLower))

/-- State of one AzureDevOpsServiceImpl instance, as set up by __init__
(lines 28 to 59 of the source). -/
structure AzureDevOpsServiceImpl where
  user_id : Option String
  token : Option String
  external_auth_id : Option String
  external_auth_token : Option String
  external_token_manager : Bool
  base_url : String

/-- Endpoint resolution exactly as in __init__ lines 44 to 59: a falsy
(absent or empty) base_domain gives the default host; an input starting
with the literal http is treated as a URL (trailing slashes stripped,
then truncated to the first three slash separated segments when a path
is present); any other input is prefixed with the https scheme.  The
subscript [1] on the result of split can raise IndexError. -/
def resolveBaseUrl (base_domain : Option String) : Except PyErr String :=
  match base_domain with
  | some bd =>
    if bd.data ≠ [] then
      if ("http").data.isPrefixOf bd.data then
        let base_url := PyStr.rstripSlash bd.data
        match pyIndexL (PyStr.splitOnce [':', '/', '/'] base_url) 1 with
        | .error e => .error e
        | .ok after =>
          if after.contains '/' then
            .ok (String.mk (List.intercalate ['/'] ((PyStr.splitCh '/' base_url).take 3)))
          else .ok (String.mk base_url)
      else .ok ("https://" ++ bd)
    else .ok "https://dev.azure.com"
  | none => .ok "https://dev.azure.com"

/-- Constructor of the service (source __init__): stores the credential
fields and resolves the base url. -/
def AzureDevOpsServiceImpl.init (user_id token external_auth_id external_auth_token :
    Option String) (external_token_manager : Bool) (base_domain : Option String) :
    Except PyErr AzureDevOpsServiceImpl :=
  (resolveBaseUrl base_domain).map fun u =>
    ⟨user_id, token, external_auth_id, external_auth_token, external_token_manager, u⟩

/-- One HTTP request as issued by _make_request: url, optional JSON body
and method. -/
structure Req where
  url : String
  params : Option JVal
  method : RequestMethod

/-- Behavior of the HTTP layer: every issued request either returns a
decoded JSON body or raises a typed error (the translation done by
handle_http_status_error and handle_http_error is part of the
oracle). -/
def Oracle : Type := Req → Except PyErr JVal

/-- Computation of the service: reads the oracle, threads the trace of
issued requests, and either returns a value or raises a Python
exception. -/
def M (α : Type) : Type := Oracle → List Req → Except PyErr α × List Req

instance : Monad M where
  pure a := fun _ t => (.ok a, t)
  bind x f := fun o t =>
    match x o t with
    | (.ok a, t1) => f a o t1
    | (.error e, t1) => (.error e, t1)

/-- Lifts a pure fallible step into the computation. -/
def liftE {α : Type} (x : Except PyErr α) : M α :=
  fun _ t => (x, t)

/-- Model of try/except Exception around a block: every modelled error
is an Exception, so the handler receives every failure. -/
def Mtry {α : Type} (x : M α) (handler : PyErr → M α) : M α :=
  fun o t =>
    match x o t with
    | (.ok a, t1) => (.ok a, t1)
    | (.error e, t1) => handler e o t1

/-- Model of raise. -/
def Mthrow {α : Type} (e : PyErr) : M α :=
  fun _ t => (.error e, t)

/-- Modelled from the spec: deployment mode flag passed by the generic
caller (openhands server types are not among the sources); the module
ignores it. -/
inductive AppMode where
  | OSS
  | SAAS
  deriving DecidableEq

/-- Provider label (source property provider). -/
def provider : String := "Azure DevOps"

/-- Source get_latest_token: returns the stored token. -/
def get_latest_token (cfg : AzureDevOpsServiceImpl) : M (Option String) :=
  pure cfg.token

/-- Source _get_auth_headers (lines 69 to 82): raises AuthenticationError
when no token is configured, otherwise builds the Basic header from the
base64 of a colon followed by the token. -/
def _get_auth_headers (cfg : AzureDevOpsServiceImpl) :
    Except PyErr (List (String × String)) :=
  match cfg.token with
  | none => .error (.authError "No Azure DevOps token provided")
  | some tok =>
    let credentials := ":" ++ tok
    let encoded := base64Encode (credentials.data.flatMap utf8Bytes)
    .ok [("Authorization", "Basic " ++ encoded),
      ("Content-Type", "application/json")]

/-- Source _make_request (lines 84 to 107): builds the auth headers
(raising before any request when the token is missing), then issues the
request; status and transport failures surface as the typed errors the
oracle carries. -/
def _make_request (cfg : AzureDevOpsServiceImpl) (url : String)
    (params : Option JVal) (method : RequestMethod) : M JVal :=
  fun oracle t =>
    match _get_auth_headers cfg with
    | .error e => (.error e, t)
    | .ok _ =>
      let req : Req := ⟨url, params, method⟩
      (oracle req, t ++ [req])

/-- Organization display name computation, shared verbatim by
_process_projects (lines 197 to 212) and _process_work_items (lines 309
to 324): last path segment of the scoped url when it differs from the
base (otherwise DefaultCollection), overridden for custom hosts by the
first label of the parsed hostname. -/
def orgNameFor (cfg : AzureDevOpsServiceImpl) (base_org_url : String) : String :=
  let org_name :=
    if base_org_url ≠ cfg.base_url then
      (((PyStr.splitCh '/' base_org_url.data).map String.mk).getLastD "")
    else "DefaultCollection"
  if cfg.base_url ≠ "https://dev.azure.com" then
    match urlHostname base_org_url with
    | some hn => (((PyStr.splitCh '.' hn.data).map String.mk).headD "")
    | none => "DefaultCollection"
  else org_name

/-- Inner repository loop of _process_projects (lines 219 to 233): for
each repository object, the provider id is hashed and masked to 31 bits
and a Repository is appended.  The accumulated list is returned even
when an exception interrupts the loop (Python mutates the caller's list
in place), together with the pending exception. -/
def buildRepos (run : PyRun) (org_name project_name : String) :
    List JVal → List Repository → List Repository × Option PyErr
  | [], acc => (acc, none)
  | repo :: rest, acc =>
    match repo.pyGet "id" (.str "") with
    | .error e => (acc, some e)
    | .ok repo_id_str =>
      match pyHashJ run repo_id_str with
      | .error e => (acc, some e)
      | .ok hv =>
        let repo_id : Int := hv % 2147483648
        match repo.pyGet "name" (.str "") with
        | .error e => (acc, some e)
        | .ok nameJ =>
          let r : Repository :=
            ⟨repo_id, org_name ++ "/" ++ project_name ++ "/" ++ JVal.pyStr nameJ,
              .AZURE_DEVOPS, false⟩
          buildRepos run org_name project_name rest (acc ++ [r])

/-- Project loop of _process_projects (lines 190 to 238): projects with
falsy id or name are skipped; the per-project repository fetch and
append loop is wrapped in try/except that logs and continues.  An
exception outside that handler ends the walk, reported in the second
component with the list mutated so far. -/
def processProjectsLoop (cfg : AzureDevOpsServiceImpl) (run : PyRun)
    (base_org_url : String) :
    List JVal → List Repository → M (List Repository × Option PyErr)
  | [], acc => pure (acc, none)
  | project :: rest, acc =>
    fun o t =>
      match project.pyGet "id" .null with
      | .error e => (.ok (acc, some e), t)
      | .ok project_id =>
        match project.pyGet "name" .null with
        | .error e => (.ok (acc, some e), t)
        | .ok project_name =>
          if !project_id.truthy || !project_name.truthy then
            processProjectsLoop cfg run base_org_url rest acc o t
          else
            let org_name := orgNameFor cfg base_org_url
            let repos_url := base_org_url ++ "/" ++ JVal.pyStr project_name ++
              "/_apis/git/repositories?api-version=7.1-preview.1"
            match _make_request cfg repos_url none .GET o t with
            | (.error _, t1) => processProjectsLoop cfg run base_org_url rest acc o t1
            | (.ok repos_data, t1) =>
              match repos_data.pyGet "value" (.arr []) with
              | .error _ => processProjectsLoop cfg run base_org_url rest acc o t1
              | .ok v =>
                match v.pyIter with
                | .error _ => processProjectsLoop cfg run base_org_url rest acc o t1
                | .ok items =>
                  let pr := buildRepos run org_name (JVal.pyStr project_name) items acc
                  processProjectsLoop cfg run base_org_url rest pr.1 o t1

/-- Source _process_projects (lines 186 to 238), with the caller's list
threaded explicitly: reads the value array and runs the project loop;
into the second component goes the exception that Python would let
escape to the caller, the first component being the list as mutated up
to that point. -/
def _process_projects (cfg : AzureDevOpsServiceImpl) (run : PyRun)
    (projects_data : JVal) (repositories : List Repository)
    (base_org_url : String) : M (List Repository × Option PyErr) :=
  fun o t =>
    match projects_data.pyGet "value" (.arr []) with
    | .error e => (.ok (repositories, some e), t)
    | .ok v =>
      match v.pyIter with
      | .error e => (.ok (repositories, some e), t)
      | .ok projects => processProjectsLoop cfg run base_org_url projects repositories o t

/-- Organization loop of get_repositories in multi-tenant mode (lines
475 to 489): the accountName read is outside the per-organization
handler, so its failure escapes to the outer handler of
get_repositories; request or processing failures for one organization
are logged and the walk continues. -/
def getRepositoriesOrgsLoop (cfg : AzureDevOpsServiceImpl) (run : PyRun) :
    List JVal → List Repository → M (List Repository)
  | [], acc => pure acc
  | org :: rest, acc => do
    let nameJ ← liftE (org.pyGet "accountName" .null)
    if !nameJ.truthy then getRepositoriesOrgsLoop cfg run rest acc
    else
      fun o t =>
        let projects_url := cfg.base_url ++ "/" ++ JVal.pyStr nameJ ++
          "/_apis/projects?api-version=7.1-preview.4"
        match _make_request cfg projects_url none .GET o t with
        | (.error _, t1) => getRepositoriesOrgsLoop cfg run rest acc o t1
        | (.ok pd, t1) =>
          match _process_projects cfg run pd acc
              (cfg.base_url ++ "/" ++ JVal.pyStr nameJ) o t1 with
          | (.ok pr, t2) => getRepositoriesOrgsLoop cfg run rest pr.1 o t2
          | (.error e, t2) => (.error e, t2)

/-- Source get_repositories (lines 452 to 495): fixed-organization mode
lists projects directly with a log-and-keep handler; multi-tenant mode
lists accounts then walks organizations; the whole body is wrapped so
any escaping failure yields the empty list. -/
def get_repositories (cfg : AzureDevOpsServiceImpl) (run : PyRun)
    (sort : String) (app_mode : AppMode) : M (List Repository) :=
  Mtry
    (let repositories : List Repository := []
     if cfg.base_url ≠ "https://dev.azure.com" then
      let projects_url := cfg.base_url ++ "/_apis/projects?api-version=7.1-preview.4"
      Mtry
        (do
          let pd ← _make_request cfg projects_url none .GET
          fun o t =>
            match _process_projects cfg run pd repositories cfg.base_url o t with
            | (.ok pr, t1) => (.ok pr.1, t1)
            | (.error e, t1) => (.error e, t1))
        (fun _ => pure repositories)
     else do
      let orgs_data ← _make_request cfg
        (cfg.base_url ++ "/_apis/accounts?api-version=7.1-preview.1") none .GET
      let v ← liftE (orgs_data.pyGet "value" (.arr []))
      let orgs ← liftE v.pyIter
      getRepositoriesOrgsLoop cfg run orgs repositories)
    (fun _ => pure [])

/-- Source search_repositories (lines 174 to 184): stub returning the
empty list. -/
def search_repositories (cfg : AzureDevOpsServiceImpl) (query : String)
    (per_page : Nat) (sort : String) (order : String) : M (List Repository) :=
  pure []

/-- Construction of a User record through pydantic field validation. -/
def mkUserE (id : Int) (login avatar_url name email : JVal) : Except PyErr User := do
  let l ← pydanticStr login
  let a ← pydanticStr avatar_url
  let n ← pydanticStr name
  let e ← pydanticStr email
  .ok ⟨id, l, a, n, e⟩

/-- Connection-data attempt of get_user (lines 113 to 132), only made on
custom instances: a truthy authenticatedUser object yields a user built
from its fields, anything else (including any exception) falls through
to the next attempt. -/
def getUserConnectionData (cfg : AzureDevOpsServiceImpl) (run : PyRun) :
    M (Option User) :=
  Mtry
    (do
      let data ← _make_request cfg
        (cfg.base_url ++ "/_apis/connectionData?api-version=7.1-preview.1") none .GET
      let au ← liftE (data.pyGet "authenticatedUser" (.obj []))
      if au.truthy then do
        let idJ ← liftE (au.pyGet "id" (.str ""))
        let hv ← liftE (pyHashJ run idJ)
        let loginJ ← liftE (au.pyGet "providerDisplayName" (.str ""))
        let nameJ ← liftE (au.pyGet "providerDisplayName" (.str ""))
        let emailJ ← liftE (au.pyGet "providerDisplayName" (.str ""))
        let u ← liftE (mkUserE (hv % 2147483648) loginJ (.str "") nameJ emailJ)
        pure (some u)
      else pure none)
    (fun _ => pure none)

/-- Profile-endpoint attempt of get_user (lines 134 to 150): any failure
falls through to the final token probe. -/
def getUserProfile (cfg : AzureDevOpsServiceImpl) (run : PyRun) : M (Option User) :=
  Mtry
    (do
      let data ← _make_request cfg
        "https://app.vssps.visualstudio.com/_apis/profile/profiles/me?api-version=7.1-preview.3"
        none .GET
      let idJ ← liftE (data.pyGet "id" (.str ""))
      let hv ← liftE (pyHashJ run idJ)
      let loginJ ← liftE (data.pyGet "emailAddress" (.str ""))
      let ca ← liftE (data.pyGet "coreAttributes" (.obj []))
      let av1 ← liftE (ca.pyGet "Avatar" (.obj []))
      let av2 ← liftE (av1.pyGet "value" (.obj []))
      let avatarJ ← liftE (av2.pyGet "value" (.str ""))
      let nameJ ← liftE (data.pyGet "displayName" (.str ""))
      let emailJ ← liftE (data.pyGet "emailAddress" (.str ""))
      let u ← liftE (mkUserE (hv % 2147483648) loginJ avatarJ nameJ emailJ)
      pure (some u))
    (fun _ => pure none)

/-- Source get_user (lines 109 to 172): connection data (custom hosts
only), then the profile endpoint, then a bare token probe returning a
synthetic user; if all three fail, AuthenticationError. -/
def get_user (cfg : AzureDevOpsServiceImpl) (run : PyRun) : M User := do
  let r1 ← (if cfg.base_url ≠ "https://dev.azure.com" then
    getUserConnectionData cfg run else pure none)
  match r1 with
  | some u => pure u
  | none => do
    let r2 ← getUserProfile cfg run
    match r2 with
    | some u => pure u
    | none =>
      Mtry
        (do
          let url := if cfg.base_url ≠ "https://dev.azure.com" then
              cfg.base_url ++ "/_apis/projects?$top=1&api-version=7.1-preview.4"
            else
              cfg.base_url ++ "/_apis/accounts?$top=1&api-version=7.1-preview.1"
          let _ ← _make_request cfg url none .GET
          pure (⟨1, "ado-user", "", "Azure DevOps User", "ado-user@example.com"⟩ : User))
        (fun _ => Mthrow (.authError "Invalid Azure DevOps token"))

/-- Source _map_work_item_type_to_task_type (lines 437 to 450): lowers
the label and matches fixed sets; every branch, the default included,
produces OPEN_ISSUE.  The lower() call needs a string receiver. -/
def _map_work_item_type_to_task_type : JVal → Except PyErr TaskType
  | .str s =>
    let work_item_type_lower := String.mk (s.data.map Char.toLower)
    if work_item_type_lower = "bug" ∨ work_item_type_lower = "defect" then
      .ok .OPEN_ISSUE
    else if work_item_type_lower = "user story" ∨ work_item_type_lower = "story" ∨
        work_item_type_lower = "feature" then
      .ok .OPEN_ISSUE
    else if work_item_type_lower = "task" ∨ work_item_type_lower = "work item" then
      .ok .OPEN_ISSUE
    else
      .ok .OPEN_ISSUE
  | _ => .error .attributeError

/-- Name-collecting loop of _get_project_repositories (lines 424 to
428): falsy names are dropped; a raised error abandons the local list
(the caller catches and returns empty). -/
def collectRepoNames : List JVal → Except PyErr (List JVal)
  | [] => .ok []
  | repo :: rest => do
    let n ← repo.pyGet "name" .null
    let tail ← collectRepoNames rest
    .ok (if n.truthy then n :: tail else tail)

/-- URL of the list-repositories-for-project call (line 421). -/
def projectReposUrl (org_url project_name : String) : String :=
  org_url ++ "/" ++ pyQuote project_name ++
    "/_apis/git/repositories?api-version=7.1-preview.1"

/-- URL of the repository-lookup-by-id call (line 409). -/
def repoByIdUrl (org_url project_name repo_id : String) : String :=
  org_url ++ "/" ++ pyQuote project_name ++ "/_apis/git/repositories/" ++
    pyQuote repo_id ++ "?api-version=7.1-preview.1"

/-- URL of the batch work-item details call (line 304). -/
def workItemsBatchUrl (org_url project_name ids_param : String) : String :=
  org_url ++ "/" ++ pyQuote project_name ++ "/_apis/wit/workitems?ids=" ++
    ids_param ++ "&$expand=relations&api-version=7.1-preview.3"

/-- URL of the single-repository lookup in
get_repository_details_from_repo_name (line 551). -/
def repoDetailsUrl (cfg : AzureDevOpsServiceImpl)
    (org_name project_name repo_name : String) : String :=
  cfg.base_url ++ "/" ++ pyQuote org_name ++ "/" ++ pyQuote project_name ++
    "/_apis/git/repositories/" ++ pyQuote repo_name ++ "?api-version=7.1-preview.1"

/-- Source _get_project_repositories (lines 416 to 435): lists the
repository names of a project, returning the empty list on any
failure. -/
def _get_project_repositories (cfg : AzureDevOpsServiceImpl)
    (org_url project_name : String) : M (List JVal) :=
  Mtry
    (do
      let repos_data ← _make_request cfg (projectReposUrl org_url project_name)
        none .GET
      let v ← liftE (repos_data.pyGet "value" (.arr []))
      let items ← liftE v.pyIter
      liftE (collectRepoNames items))
    (fun _ => pure [])

/-- Source _get_repository_name_from_id (lines 404 to 414): fetches one
repository by id and returns its name field; any failure gives None. -/
def _get_repository_name_from_id (cfg : AzureDevOpsServiceImpl)
    (org_url project_name repo_id : String) : M JVal :=
  Mtry
    (do
      let repo_data ← _make_request cfg (repoByIdUrl org_url project_name repo_id)
        none .GET
      liftE (repo_data.pyGet "name" .null))
    (fun _ => pure .null)

/-- Relation scan of _get_work_item_repository_association (lines 371 to
389): the first ArtifactLink relation whose url contains both the
git/repositories and the commits markers, has a repositories path
segment with a successor, and whose id resolves to a truthy name, ends
the scan; every other relation is passed over. -/
def relationsLoop (cfg : AzureDevOpsServiceImpl)
    (org_url project_name org_name : String) : List JVal → M (Option String)
  | [] => pure none
  | relation :: rest => do
    let rel_type ← liftE (relation.pyGet "rel" (.str ""))
    let b1 ← liftE (JVal.pyInStr "ArtifactLink" rel_type)
    if b1 then do
      let urlJ ← liftE (relation.pyGet "url" (.str ""))
      let b2 ← liftE (JVal.pyInStr "git/repositories" urlJ)
      let b3 ← (if b2 then liftE (JVal.pyInStr "commits" urlJ) else pure false)
      if b2 && b3 then do
        let url_parts ← liftE (JVal.pySplitJ urlJ '/')
        if url_parts.contains "repositories" then
          let repo_idx := PyStr.listIndex url_parts "repositories"
          if repo_idx + 1 < url_parts.length then do
            let repo_id := url_parts.getD (repo_idx + 1) ""
            let repo_name ← _get_repository_name_from_id cfg org_url project_name repo_id
            if repo_name.truthy then
              pure (some (org_name ++ "/" ++ project_name ++ "/" ++ JVal.pyStr repo_name))
            else relationsLoop cfg org_url project_name org_name rest
          else relationsLoop cfg org_url project_name org_name rest
        else relationsLoop cfg org_url project_name org_name rest
      else relationsLoop cfg org_url project_name org_name rest
    else relationsLoop cfg org_url project_name org_name rest

/-- Source _get_work_item_repository_association (lines 363 to 402):
relation scan first, then fallback to the first repository of the
project; an empty repository list, or any escaping exception, gives no
association. -/
def _get_work_item_repository_association (cfg : AzureDevOpsServiceImpl)
    (work_item : JVal) (org_url project_name org_name : String) : M (Option String) :=
  Mtry
    (do
      let relations ← liftE (work_item.pyGet "relations" (.arr []))
      let relList ← liftE relations.pyIter
      let r ← relationsLoop cfg org_url project_name org_name relList
      match r with
      | some nm => pure (some nm)
      | none => do
        let repos ← _get_project_repositories cfg org_url project_name
        match repos with
        | first_repo :: _ =>
          pure (some (org_name ++ "/" ++ project_name ++ "/" ++ JVal.pyStr first_repo))
        | [] => pure none)
    (fun _ => pure none)

/-- Per-item loop of _process_work_items (lines 326 to 358): each item
is processed under its own handler, so one bad item is skipped and the
loop continues; an item with a truthy association appends one
SuggestedTask. -/
def workItemsLoop (cfg : AzureDevOpsServiceImpl)
    (org_url project_name org_name : String) :
    List JVal → List SuggestedTask → M (List SuggestedTask)
  | [], acc => pure acc
  | work_item :: rest, acc => do
    let acc2 ← Mtry
      (do
        let wiId ← liftE (work_item.pyGet "id" .null)
        let fields ← liftE (work_item.pyGet "fields" (.obj []))
        let titleJ ← liftE (fields.pyGet "System.Title" (.str "Untitled Work Item"))
        let typeJ ← liftE (fields.pyGet "System.WorkItemType" (.str "Work Item"))
        let assoc ← _get_work_item_repository_association cfg work_item org_url
          project_name org_name
        match assoc with
        | some repo_name =>
          if repo_name ≠ "" then do
            let task_type ← liftE (_map_work_item_type_to_task_type typeJ)
            let issue_number ← liftE (pydanticInt wiId)
            let title ← liftE (pydanticStr titleJ)
            pure (acc ++ [(⟨.AZURE_DEVOPS, task_type, repo_name, issue_number, title⟩ :
              SuggestedTask)])
          else pure acc
        | none => pure acc)
      (fun _ => pure acc)
    workItemsLoop cfg org_url project_name org_name rest acc2

/-- Source _process_work_items (lines 293 to 361): batch-fetches item
details with relations expanded, computes the organization name, then
runs the per-item loop; a failure before the loop leaves the caller's
list unchanged. -/
def _process_work_items (cfg : AzureDevOpsServiceImpl)
    (org_url project_name : String) (work_item_ids : List String)
    (suggested_tasks : List SuggestedTask) : M (List SuggestedTask) :=
  Mtry
    (do
      let ids_param := String.intercalate "," work_item_ids
      let work_items_url := workItemsBatchUrl org_url project_name ids_param
      let resp ← _make_request cfg work_items_url none .GET
      let v ← liftE (resp.pyGet "value" (.arr []))
      let items ← liftE v.pyIter
      let org_name := orgNameFor cfg org_url
      workItemsLoop cfg org_url project_name org_name items suggested_tasks)
    (fun _ => pure suggested_tasks)

/-- The WIQL query text built at lines 256 to 264, whitespace
included. -/
def wiqlText (user_email : String) : String :=
  "\n                        SELECT [System.Id], [System.Title], [System.WorkItemType], [System.State]\n                        FROM WorkItems\n                        WHERE [System.AssignedTo] = \x27" ++
  user_email ++
  "\x27\n                        AND [System.State] NOT IN (\x27Closed\x27, \x27Done\x27, \x27Removed\x27, \x27Resolved\x27)\n                        ORDER BY [System.ChangedDate] DESC\n                    "

/-- Model of urllib quote on a value that must be a string. -/
def pyQuoteJ : JVal → Except PyErr String
  | .str s => .ok (pyQuote s)
  | _ => .error .typeError

/-- Identifier list comprehension at line 278: str(wi[id]) for each
matched work item. -/
def collectIds : List JVal → Except PyErr (List String)
  | [] => .ok []
  | wi :: rest => do
    let idJ ← wi.pySubscript "id"
    let tail ← collectIds rest
    .ok (JVal.pyStr idJ :: tail)

/-- Project loop of _get_work_items_for_organization (lines 249 to 288):
the name read and the quoting of the project name sit outside the
per-project handler, so their failure ends the walk for this
organization (the enclosing handler logs it), keeping the list built so
far; WIQL or processing failures only skip the one project. -/
def wiOrgProjectsLoop (cfg : AzureDevOpsServiceImpl)
    (org_url user_email : String) :
    List JVal → List SuggestedTask → M (List SuggestedTask)
  | [], acc => pure acc
  | project :: rest, acc =>
    fun o t =>
      match project.pyGet "name" .null with
      | .error _ => (.ok acc, t)
      | .ok project_nameJ =>
        if !project_nameJ.truthy then
          wiOrgProjectsLoop cfg org_url user_email rest acc o t
        else
          let wiql_query : JVal := .obj [("query", .str (wiqlText user_email))]
          match pyQuoteJ project_nameJ with
          | .error _ => (.ok acc, t)
          | .ok qn =>
            let wiql_url := org_url ++ "/" ++ qn ++
              "/_apis/wit/wiql?api-version=7.1-preview.2"
            let inner : M (List SuggestedTask) :=
              Mtry
                (do
                  let wiql_response ← _make_request cfg wiql_url (some wiql_query) .POST
                  let work_items ← liftE (wiql_response.pyGet "workItems" (.arr []))
                  if !work_items.truthy then pure acc
                  else do
                    let wis ← liftE work_items.pyIter
                    let work_item_ids ← liftE (collectIds wis)
                    if work_item_ids ≠ [] then
                      _process_work_items cfg org_url (JVal.pyStr project_nameJ)
                        work_item_ids acc
                    else pure acc)
                (fun _ => pure acc)
            match inner o t with
            | (.ok acc2, t1) => wiOrgProjectsLoop cfg org_url user_email rest acc2 o t1
            | (.error e, t1) => (.error e, t1)

/-- Source _get_work_items_for_organization (lines 240 to 291): lists
the projects of one organization and runs the project loop; the whole
body is wrapped, so the caller always receives a list. -/
def _get_work_items_for_organization (cfg : AzureDevOpsServiceImpl)
    (org_url user_email : String) (suggested_tasks : List SuggestedTask) :
    M (List SuggestedTask) :=
  Mtry
    (do
      let projects_data ← _make_request cfg
        (org_url ++ "/_apis/projects?api-version=7.1-preview.4") none .GET
      let v ← liftE (projects_data.pyGet "value" (.arr []))
      let projs ← liftE v.pyIter
      wiOrgProjectsLoop cfg org_url user_email projs suggested_tasks)
    (fun _ => pure suggested_tasks)

/-- Organization loop of get_suggested_tasks in multi-tenant mode (lines
522 to 528): the accountName read is inside the surrounding handler, so
its failure ends the loop with the list kept. -/
def suggestedTasksOrgsLoop (cfg : AzureDevOpsServiceImpl) (user_email : String) :
    List JVal → List SuggestedTask → M (List SuggestedTask)
  | [], acc => pure acc
  | org :: rest, acc =>
    fun o t =>
      match org.pyGet "accountName" .null with
      | .error _ => (.ok acc, t)
      | .ok nameJ =>
        if nameJ.truthy then
          let org_url := cfg.base_url ++ "/" ++ JVal.pyStr nameJ
          match _get_work_items_for_organization cfg org_url user_email acc o t with
          | (.ok acc2, t1) => suggestedTasksOrgsLoop cfg user_email rest acc2 o t1
          | (.error e, t1) => (.error e, t1)
        else suggestedTasksOrgsLoop cfg user_email rest acc o t

/-- Source get_suggested_tasks (lines 497 to 536): fetches the user,
aborts with an empty result on an empty email, walks organizations (or
the fixed organization), and degrades to the empty list when anything
escapes. -/
def get_suggested_tasks (cfg : AzureDevOpsServiceImpl) (run : PyRun) :
    M (List SuggestedTask) :=
  Mtry
    (do
      let suggested_tasks : List SuggestedTask := []
      let user ← get_user cfg run
      let user_email := user.email
      if user_email = "" then pure []
      else if cfg.base_url ≠ "https://dev.azure.com" then
        _get_work_items_for_organization cfg cfg.base_url user_email suggested_tasks
      else
        Mtry
          (do
            let orgs_data ← _make_request cfg
              (cfg.base_url ++ "/_apis/accounts?api-version=7.1-preview.1") none .GET
            let v ← liftE (orgs_data.pyGet "value" (.arr []))
            let orgs ← liftE v.pyIter
            suggestedTasksOrgsLoop cfg user_email orgs suggested_tasks)
          (fun _ => pure suggested_tasks))
    (fun _ => pure [])

/-- Source get_repository_details_from_repo_name (lines 538 to 564):
ValueError on a name that does not split into exactly three segments,
before any request; then one lookup whose failure, of any kind, is
re-raised as AuthenticationError; on success the input string itself is
the full_name and the id field receives the raw id of the response. -/
def get_repository_details_from_repo_name (cfg : AzureDevOpsServiceImpl)
    (repository : String) : M Repository :=
  match PyStr.pySplit repository '/' with
  | [org_name, project_name, repo_name] =>
    let url := repoDetailsUrl cfg org_name project_name repo_name
    Mtry
      (do
        let data ← _make_request cfg url none .GET
        let idJ ← liftE (data.pyGet "id" (.str ""))
        let idInt ← liftE (pydanticInt idJ)
        pure (⟨idInt, repository, .AZURE_DEVOPS, false⟩ : Repository))
      (fun _ => Mthrow (.authError ("Cannot access repository " ++ repository)))
  | _ =>
    Mthrow (.valueError
      "Azure DevOps repository format should be: organization/project/repository")

/-- URL of the refs listing in get_branches (lines 578 to 583): custom
instances omit the organization segment, the cloud host includes it. -/
def branchesUrl (cfg : AzureDevOpsServiceImpl)
    (org_name project_name repo_name : String) : String :=
  if cfg.base_url ≠ "https://dev.azure.com" then
    cfg.base_url ++ "/" ++ pyQuote project_name ++
      "/_apis/git/repositories/" ++ pyQuote repo_name ++
      "/refs?filter=heads/&api-version=7.1-preview.1"
  else
    cfg.base_url ++ "/" ++ pyQuote org_name ++ "/" ++ pyQuote project_name ++
      "/_apis/git/repositories/" ++ pyQuote repo_name ++
      "/refs?filter=heads/&api-version=7.1-preview.1"

/-- Branch loop of get_branches (lines 588 to 598): the ref name has
every refs/heads/ occurrence removed; only a truthy remainder yields a
Branch, whose protected flag is the constant false. -/
def buildBranches : List JVal → Except PyErr (List Branch)
  | [] => .ok []
  | ref :: rest => do
    let nameJ ← ref.pyGet "name" (.str "")
    let branch_name ← JVal.pyReplaceJ nameJ "refs/heads/" ""
    if branch_name ≠ "" then do
      let shaJ ← ref.pyGet "objectId" (.str "")
      let sha ← pydanticStr shaJ
      let tail ← buildBranches rest
      .ok (⟨branch_name, sha, false⟩ :: tail)
    else do
      let tail ← buildBranches rest
      .ok tail

/-- Source get_branches (lines 566 to 604): ValueError on a malformed
name before any request; the refs listing is then fetched (custom and
cloud URL shapes) and mapped to branches, any failure giving the empty
list. -/
def get_branches (cfg : AzureDevOpsServiceImpl) (repository : String) :
    M (List Branch) :=
  match PyStr.pySplit repository '/' with
  | [org_name, project_name, repo_name] =>
    let url := branchesUrl cfg org_name project_name repo_name
    Mtry
      (do
        let data ← _make_request cfg url none .GET
        let v ← liftE (data.pyGet "value" (.arr []))
        let refs ← liftE v.pyIter
        liftE (buildBranches refs))
      (fun _ => pure [])
  | _ =>
    Mthrow (.valueError
      "Azure DevOps repository format should be: organization/project/repository")

/-
Verification section.  First some small fixtures and unfolding lemmas
for the computation type, then one theorem per claim.
-/

/-- Unfolds one bind of the computation type. -/
theorem M_bind_eq {α β : Type} (x : M α) (f : α → M β) (o : Oracle) (t : List Req) :
    (x >>= f) o t =
      match x o t with
      | (.ok a, t1) => f a o t1
      | (.error e, t1) => (.error e, t1) := rfl

/-- Unfolds pure of the computation type. -/
theorem M_pure_eq {α : Type} (a : α) (o : Oracle) (t : List Req) :
    (pure a : M α) o t = (.ok a, t) := rfl

/-- A try/except whose handler returns a constant always succeeds. -/
theorem Mtry_pure_handler {α : Type} (x : M α) (v : α) (o : Oracle) (t : List Req) :
    ∃ a t1, Mtry x (fun _ => pure v) o t = (.ok a, t1) := by
  unfold Mtry
  rcases h : x o t with ⟨r, t1⟩
  cases r with
  | ok a => exact ⟨a, t1, rfl⟩
  | error e => exact ⟨v, t1, rfl⟩

/-- A missing token makes _make_request raise AuthenticationError
without touching the network. -/
theorem make_request_no_token (cfg : AzureDevOpsServiceImpl)
    (htok : cfg.token = none) (url : String) (params : Option JVal)
    (method : RequestMethod) (o : Oracle) (t : List Req) :
    _make_request cfg url params method o t =
      (.error (.authError "No Azure DevOps token provided"), t) := by
  unfold _make_request _get_auth_headers
  rw [htok]

/-- Default-host service fixture with a token. -/
def cfgTok : AzureDevOpsServiceImpl :=
  ⟨none, some "token123", none, none, false, "https://dev.azure.com"⟩

/-- Custom-host service fixture with a token. -/
def cfgCustomTok : AzureDevOpsServiceImpl :=
  ⟨none, some "token123", none, none, false, "https://myorg.visualstudio.com"⟩

/-- Default-host service fixture without a token. -/
def cfgNoToken : AzureDevOpsServiceImpl :=
  ⟨none, none, none, none, false, "https://dev.azure.com"⟩

/-- Interpreter run whose string hash is constantly zero. -/
def runZero : PyRun := ⟨fun _ => 0, 0⟩

/-- Interpreter run whose string hash is constantly one. -/
def runOne : PyRun := ⟨fun _ => 1, 1⟩

/-- HTTP layer that fails every request with a connectivity error. -/
def oracleDown : Oracle := fun _ => .error .httpConnError

/-- C1: whatever the HTTP layer does (any typed exception at any point,
connectivity errors while listing organizations included, and any
response shape), get_repositories and get_suggested_tasks return a list
and never let an exception escape. -/
theorem C1_aggregates_never_raise (cfg : AzureDevOpsServiceImpl) (run : PyRun)
    (sort : String) (app_mode : AppMode) (o : Oracle) (t : List Req) :
    (∃ l t1, get_repositories cfg run sort app_mode o t = (.ok l, t1)) ∧
    (∃ l t2, get_suggested_tasks cfg run o t = (.ok l, t2)) := by
  constructor
  · exact Mtry_pure_handler _ [] o t
  · exact Mtry_pure_handler _ [] o t

/-- C7: a repository name that does not split into exactly three
segments makes get_repository_details_from_repo_name and get_branches
raise ValueError with the request trace unchanged, so before any network
call. -/
theorem C7_invalid_name_validation_error (cfg : AzureDevOpsServiceImpl)
    (repository : String) (o : Oracle) (t : List Req)
    (h : (PyStr.pySplit repository '/').length ≠ 3) :
    get_repository_details_from_repo_name cfg repository o t =
      (.error (.valueError
        "Azure DevOps repository format should be: organization/project/repository"), t) ∧
    get_branches cfg repository o t =
      (.error (.valueError
        "Azure DevOps repository format should be: organization/project/repository"), t) := by
  rcases hl : PyStr.pySplit repository '/' with _ | ⟨a, _ | ⟨b, _ | ⟨c, _ | ⟨d, rest⟩⟩⟩⟩ <;>
    simp_all [get_repository_details_from_repo_name, get_branches, Mthrow]

/-- Witness for C7 at the two-segment name a/b. -/
theorem C7_witness :
    (PyStr.pySplit "a/b" '/').length ≠ 3 ∧
    get_repository_details_from_repo_name cfgTok "a/b" oracleDown [] =
      (.error (.valueError
        "Azure DevOps repository format should be: organization/project/repository"), []) := by
  refine ⟨by decide, ?_⟩
  exact (C7_invalid_name_validation_error cfgTok "a/b" oracleDown [] (by decide)).1

/-- Unfolds one try/except of the computation type. -/
theorem Mtry_eq {α : Type} (x : M α) (h : PyErr → M α) (o : Oracle) (t : List Req) :
    Mtry x h o t =
      match x o t with
      | (.ok a, t1) => (.ok a, t1)
      | (.error e, t1) => h e o t1 := rfl

/-- Without a token the connection-data attempt falls through. -/
theorem getUserConnectionData_no_token (cfg : AzureDevOpsServiceImpl) (run : PyRun)
    (htok : cfg.token = none) (o : Oracle) (t : List Req) :
    getUserConnectionData cfg run o t = (.ok none, t) := by
  simp [getUserConnectionData, Mtry_eq, M_bind_eq, M_pure_eq,
    make_request_no_token cfg htok]

/-- Without a token the profile attempt falls through. -/
theorem getUserProfile_no_token (cfg : AzureDevOpsServiceImpl) (run : PyRun)
    (htok : cfg.token = none) (o : Oracle) (t : List Req) :
    getUserProfile cfg run o t = (.ok none, t) := by
  simp [getUserProfile, Mtry_eq, M_bind_eq, M_pure_eq,
    make_request_no_token cfg htok]

/-- Without a token get_user raises AuthenticationError. -/
theorem get_user_no_token (cfg : AzureDevOpsServiceImpl) (run : PyRun)
    (htok : cfg.token = none) (o : Oracle) (t : List Req) :
    get_user cfg run o t = (.error (.authError "Invalid Azure DevOps token"), t) := by
  by_cases hb : cfg.base_url = "https://dev.azure.com" <;>
    simp [get_user, hb, M_bind_eq, M_pure_eq, Mtry_eq, Mthrow,
      getUserConnectionData_no_token cfg run htok,
      getUserProfile_no_token cfg run htok,
      make_request_no_token cfg htok]

/-- Without a token get_repositories swallows the failure and returns
the empty list. -/
theorem get_repositories_no_token (cfg : AzureDevOpsServiceImpl) (run : PyRun)
    (htok : cfg.token = none) (sort : String) (app_mode : AppMode)
    (o : Oracle) (t : List Req) :
    get_repositories cfg run sort app_mode o t = (.ok [], t) := by
  by_cases hb : cfg.base_url = "https://dev.azure.com" <;>
    simp [get_repositories, hb, M_bind_eq, M_pure_eq, Mtry_eq,
      make_request_no_token cfg htok]

/-- Without a token get_suggested_tasks swallows the failure and returns
the empty list. -/
theorem get_suggested_tasks_no_token (cfg : AzureDevOpsServiceImpl) (run : PyRun)
    (htok : cfg.token = none) (o : Oracle) (t : List Req) :
    get_suggested_tasks cfg run o t = (.ok [], t) := by
  simp [get_suggested_tasks, Mtry_eq, M_bind_eq, M_pure_eq,
    get_user_no_token cfg run htok]

/-- C3 counterexample: with no token configured, the aggregate method
get_repositories does not propagate a typed Authentication error as the
claim states; it returns the empty list. -/
theorem C3_counterexample :
    get_repositories cfgNoToken runZero "pushed" .OSS oracleDown [] = (.ok [], []) ∧
    (get_repositories cfgNoToken runZero "pushed" .OSS oracleDown []).1 ≠
      .error (.authError "No Azure DevOps token provided") := by
  have h := get_repositories_no_token cfgNoToken runZero rfl "pushed" .OSS oracleDown []
  refine ⟨h, ?_⟩
  rw [h]
  simp

/-- C3 (amended): with no token configured, the single-entity methods
get_user and get_repository_details_from_repo_name (on a well-formed
name) raise a typed AuthenticationError, while get_repositories,
get_suggested_tasks and get_branches absorb it and return empty lists;
no request is ever issued (the trace stays unchanged). -/
theorem C3_amended_missing_token (cfg : AzureDevOpsServiceImpl) (run : PyRun)
    (sort : String) (app_mode : AppMode) (repository a b c : String)
    (o : Oracle) (t : List Req)
    (htok : cfg.token = none)
    (hsplit : PyStr.pySplit repository '/' = [a, b, c]) :
    get_user cfg run o t = (.error (.authError "Invalid Azure DevOps token"), t) ∧
    get_repository_details_from_repo_name cfg repository o t =
      (.error (.authError ("Cannot access repository " ++ repository)), t) ∧
    get_repositories cfg run sort app_mode o t = (.ok [], t) ∧
    get_suggested_tasks cfg run o t = (.ok [], t) ∧
    get_branches cfg repository o t = (.ok [], t) := by
  refine ⟨get_user_no_token cfg run htok o t, ?_,
    get_repositories_no_token cfg run htok sort app_mode o t,
    get_suggested_tasks_no_token cfg run htok o t, ?_⟩
  · simp [get_repository_details_from_repo_name, hsplit, Mtry_eq, M_bind_eq,
      M_pure_eq, Mthrow, make_request_no_token cfg htok]
  · simp [get_branches, hsplit, Mtry_eq, M_bind_eq, M_pure_eq,
      make_request_no_token cfg htok]

/-- Witness for the amended C3 at a concrete tokenless service. -/
theorem C3_amended_witness :
    cfgNoToken.token = none ∧
    PyStr.pySplit "org/proj/repo" '/' = ["org", "proj", "repo"] ∧
    get_user cfgNoToken runZero oracleDown [] =
      (.error (.authError "Invalid Azure DevOps token"), []) ∧
    get_repository_details_from_repo_name cfgNoToken "org/proj/repo" oracleDown [] =
      (.error (.authError "Cannot access repository org/proj/repo"), []) := by
  have h := C3_amended_missing_token cfgNoToken runZero "pushed" .OSS
    "org/proj/repo" "org" "proj" "repo" oracleDown [] rfl (by decide)
  exact ⟨rfl, by decide, h.1, h.2.1⟩

/-- With a token, _make_request issues exactly one request and returns
whatever the oracle answers. -/
theorem make_request_with_token (cfg : AzureDevOpsServiceImpl) (tok : String)
    (htok : cfg.token = some tok) (url : String) (params : Option JVal)
    (method : RequestMethod) (o : Oracle) (t : List Req) :
    _make_request cfg url params method o t =
      (o ⟨url, params, method⟩, t ++ [⟨url, params, method⟩]) := by
  unfold _make_request _get_auth_headers
  rw [htok]

/-- C10: on a well-formed three-segment name, any failure of the
underlying lookup request makes get_repository_details_from_repo_name
raise AuthenticationError in place of the original error; when it does
succeed, the full_name of the returned Repository is the input string
verbatim. -/
theorem C10_details_auth_wrapping (cfg : AzureDevOpsServiceImpl) (tok : String)
    (repository a b c : String) (o : Oracle) (t : List Req)
    (htok : cfg.token = some tok)
    (hsplit : PyStr.pySplit repository '/' = [a, b, c]) :
    (∀ e : PyErr, o ⟨repoDetailsUrl cfg a b c, none, .GET⟩ = .error e →
      get_repository_details_from_repo_name cfg repository o t =
        (.error (.authError ("Cannot access repository " ++ repository)),
          t ++ [⟨repoDetailsUrl cfg a b c, none, .GET⟩])) ∧
    (∀ (r : Repository) (t1 : List Req),
      get_repository_details_from_repo_name cfg repository o t = (.ok r, t1) →
      r.full_name = repository) := by
  constructor
  · intro e he
    simp [get_repository_details_from_repo_name, hsplit, Mtry_eq, M_bind_eq,
      M_pure_eq, Mthrow, liftE, make_request_with_token cfg tok htok, he]
  · intro r t1 h
    simp only [get_repository_details_from_repo_name, hsplit, Mtry_eq, M_bind_eq,
      M_pure_eq, Mthrow, liftE, make_request_with_token cfg tok htok] at h
    rcases ho : o ⟨repoDetailsUrl cfg a b c, none, .GET⟩ with e | d
    · simp [ho] at h
    · simp only [ho] at h
      rcases hg : d.pyGet "id" (.str "") with e2 | idJ
      · simp [hg] at h
      · simp only [hg] at h
        rcases hi : pydanticInt idJ with e3 | n
        · simp [hi] at h
        · simp only [hi, Prod.mk.injEq, Except.ok.injEq] at h
          obtain ⟨h1, h2⟩ := h
          subst h1
          rfl

/-- Witness for C10 with a connectivity failure on the lookup. -/
theorem C10_witness :
    cfgTok.token = some "token123" ∧
    PyStr.pySplit "org/proj/repo" '/' = ["org", "proj", "repo"] ∧
    get_repository_details_from_repo_name cfgTok "org/proj/repo" oracleDown [] =
      (.error (.authError "Cannot access repository org/proj/repo"),
        [⟨repoDetailsUrl cfgTok "org" "proj" "repo", none, .GET⟩]) := by
  refine ⟨rfl, by decide, ?_⟩
  exact (C10_details_auth_wrapping cfgTok "token123" "org/proj/repo" "org" "proj"
    "repo" oracleDown [] rfl (by decide)).1 .httpConnError rfl

/-- Splitting a trailing strip across an append. -/
theorem rstripSlash_append (x y : List Char) :
    PyStr.rstripSlash (x ++ y) =
      if PyStr.rstripSlash y = [] then PyStr.rstripSlash x
      else x ++ PyStr.rstripSlash y := by
  unfold PyStr.rstripSlash
  rw [List.reverse_append, List.dropWhile_append]
  by_cases h : (y.reverse.dropWhile (fun c => decide (c = '/'))) = []
  · simp [h]
  · simp [h, List.reverse_append]

/-- A nonempty list free of slashes is untouched by the trailing
strip. -/
theorem rstripSlash_of_no_slash (h : List Char) (hne : h ≠ []) (hs : '/' ∉ h) :
    PyStr.rstripSlash h = h := by
  obtain ⟨c, rest, hrev⟩ : ∃ c rest, h.reverse = c :: rest := by
    cases hr : h.reverse with
    | nil => exact absurd (List.reverse_eq_nil_iff.mp hr) hne
    | cons c rest => exact ⟨c, rest, rfl⟩
  have hc : c ∈ h := by
    have hm : c ∈ h.reverse := by rw [hrev]; exact List.mem_cons_self c rest
    rwa [List.mem_reverse] at hm
  have hcne : ¬ (c = '/') := fun hh => hs (hh ▸ hc)
  unfold PyStr.rstripSlash
  rw [hrev, List.dropWhile_cons_of_neg (by simpa using hcne), ← hrev,
    List.reverse_reverse]

/-- The first scheme separator of a URL whose scheme part has no slash
is the explicit one. -/
theorem findSub_scheme (s rest : List Char) (hs : '/' ∉ s) :
    PyStr.findSub [':', '/', '/'] (s ++ ':' :: '/' :: '/' :: rest) =
      some (s, rest) := by
  induction s with
  | nil => simp [PyStr.findSub, List.isPrefixOf]
  | cons c s ih =>
    have hs' : '/' ∉ s := fun hm => hs (List.mem_cons_of_mem c hm)
    have hc : ¬ (c = '/') := fun hh => hs (hh ▸ List.mem_cons_self c s)
    have hpf : (([':', '/', '/'] : List Char).isPrefixOf
        (c :: (s ++ ':' :: '/' :: '/' :: rest))) = false := by
      cases s with
      | nil => simp [List.isPrefixOf]
      | cons d s2 =>
        have hd : ¬ ('/' = d) := by
          intro hh
          exact hs' (hh ▸ List.mem_cons_self d s2)
        simp [List.isPrefixOf, hd]
    rw [List.cons_append]
    unfold PyStr.findSub
    rw [hpf]
    simp only [Bool.false_eq_true, if_false, ih hs']

/-- Step equation of splitCh on a non-separator head. -/
theorem splitCh_cons_ne (sep c : Char) (cs : List Char) (hc : ¬ (c = sep)) :
    PyStr.splitCh sep (c :: cs) =
      match PyStr.splitCh sep cs with
      | [] => [[c]]
      | g :: gs => (c :: g) :: gs := by
  simp only [PyStr.splitCh]
  rw [if_neg hc]

/-- Splitting on the slash that follows a slash-free block. -/
theorem splitCh_append_sep (a rest : List Char) (ha : '/' ∉ a) :
    PyStr.splitCh '/' (a ++ '/' :: rest) = a :: PyStr.splitCh '/' rest := by
  induction a with
  | nil => simp [PyStr.splitCh]
  | cons c a ih =>
    have hc : ¬ (c = '/') := fun hh => ha (hh ▸ List.mem_cons_self c a)
    have ha' : '/' ∉ a := fun hm => ha (List.mem_cons_of_mem c hm)
    rw [List.cons_append, splitCh_cons_ne '/' c _ hc, ih ha']

/-- A slash-free list splits into itself. -/
theorem splitCh_no_sep (a : List Char) (ha : '/' ∉ a) :
    PyStr.splitCh '/' a = [a] := by
  induction a with
  | nil => rfl
  | cons c a ih =>
    have hc : ¬ (c = '/') := fun hh => ha (hh ▸ List.mem_cons_self c a)
    have ha' : '/' ∉ a := fun hm => ha (List.mem_cons_of_mem c hm)
    rw [splitCh_cons_ne '/' c _ hc, ih ha']

/-- C6 counterexample: the bare host httpx.com does not start with a
scheme, yet the resolver does not produce https://httpx.com; because the
input starts with the literal http, __init__ takes the URL branch and
the [1] subscript raises IndexError. -/
theorem C6_counterexample :
    resolveBaseUrl (some "httpx.com") = .error .indexError ∧
    resolveBaseUrl (some "httpx.com") ≠ .ok "https://httpx.com" := by
  have h : resolveBaseUrl (some "httpx.com") = .error .indexError := rfl
  refine ⟨h, ?_⟩
  rw [h]
  simp

/-- C6 (amended): the resolver maps an absent input to the default
host; a nonempty input that does not start with the literal http to
https plus the input; and an input scheme://host followed by nothing, a
trailing slash, or a path (scheme starting with http and slash free,
host nonempty and slash free) to scheme://host — which is at once the
first three slash separated segments and the host-only input minus its
trailing slashes, so the trailing-slash form resolves identically to the
bare one.  A bare host that starts with the literal http (no scheme
separator) instead raises IndexError, per the counterexample. -/
theorem C6_amended_endpoint_resolver :
    (∀ (bd : String) (s h tail : List Char),
      bd.data = s ++ ':' :: '/' :: '/' :: (h ++ tail) →
      ("http").data.isPrefixOf s = true → '/' ∉ s → h ≠ [] → '/' ∉ h →
      (tail = [] ∨ ∃ t2, tail = '/' :: t2) →
      resolveBaseUrl (some bd) = .ok (String.mk (s ++ ':' :: '/' :: '/' :: h))) ∧
    (∀ bd : String, bd.data ≠ [] → ("http").data.isPrefixOf bd.data = false →
      resolveBaseUrl (some bd) = .ok ("https://" ++ bd)) ∧
    resolveBaseUrl none = .ok "https://dev.azure.com" := by
  refine ⟨?_, ?_, rfl⟩
  · intro bd s h tail hbd hpre hs hh hsh htail
    have hmem : PyStr.rstripSlash tail = [] ∨
        ∃ t3, PyStr.rstripSlash tail = '/' :: t3 := by
      rcases htail with rfl | ⟨t2, rfl⟩
      · exact Or.inl rfl
      · have h2 := rstripSlash_append ['/'] t2
        simp only [List.singleton_append] at h2
        by_cases ht2 : PyStr.rstripSlash t2 = []
        · rw [h2, if_pos ht2]
          exact Or.inl rfl
        · rw [h2, if_neg ht2]
          exact Or.inr ⟨PyStr.rstripSlash t2, rfl⟩
    have hkey : PyStr.rstripSlash (s ++ ':' :: '/' :: '/' :: (h ++ tail)) =
        s ++ ':' :: '/' :: '/' :: (h ++ PyStr.rstripSlash tail) := by
      have hassoc : s ++ ':' :: '/' :: '/' :: (h ++ tail) =
          ((s ++ [':', '/', '/']) ++ h) ++ tail := by simp
      rw [hassoc, rstripSlash_append]
      by_cases ht : PyStr.rstripSlash tail = []
      · rw [if_pos ht, rstripSlash_append, rstripSlash_of_no_slash h hh hsh,
          if_neg hh, ht]
        simp
      · rw [if_neg ht]
        simp
    have hne2 : bd.data ≠ [] := by
      rw [hbd]
      rcases s with _ | ⟨c, s⟩ <;> simp
    have hplBool : ("http").data.isPrefixOf bd.data = true := by
      rw [hbd]
      rw [List.isPrefixOf_iff_prefix] at hpre ⊢
      exact hpre.trans (List.prefix_append _ _)
    simp only [resolveBaseUrl]
    rw [if_pos hne2, if_pos hplBool, hbd, hkey]
    unfold PyStr.splitOnce
    rw [findSub_scheme s (h ++ PyStr.rstripSlash tail) hs]
    rcases hmem with hm0 | ⟨t3, hm3⟩
    · rw [hm0]
      simp [pyIndexL, hsh]
    · rw [hm3]
      have hcont : ((h ++ '/' :: t3).contains '/') = true := by
        simp
      have hsplit3 : PyStr.splitCh '/' (s ++ ':' :: '/' :: '/' :: (h ++ '/' :: t3)) =
          (s ++ [':']) :: [] :: h :: PyStr.splitCh '/' t3 := by
        have ha1 : '/' ∉ s ++ [':'] := by
          intro hm
          rcases List.mem_append.mp hm with hm1 | hm1
          · exact hs hm1
          · simp at hm1
        have hshape : s ++ ':' :: '/' :: '/' :: (h ++ '/' :: t3) =
            (s ++ [':']) ++ '/' :: ([] ++ '/' :: (h ++ '/' :: t3)) := by simp
        rw [hshape, splitCh_append_sep _ _ ha1,
          splitCh_append_sep ([] : List Char) _ (by simp),
          splitCh_append_sep h _ hsh]
      simp [pyIndexL, hcont, hsplit3, List.intercalate, List.intersperse]
  · intro bd hne hnp
    simp only [resolveBaseUrl]
    rw [if_pos hne, hnp]
    simp

/-- Witness for the amended C6 at the three concrete inputs
https://myorg.visualstudio.com/project, https://myorg.visualstudio.com/
and a bare host. -/
theorem C6_witness :
    resolveBaseUrl (some "https://myorg.visualstudio.com/project") =
      .ok (String.mk ("https".data ++ ':' :: '/' :: '/' ::
        "myorg.visualstudio.com".data)) ∧
    resolveBaseUrl (some "myorg.visualstudio.com") =
      .ok ("https://" ++ "myorg.visualstudio.com") := by
  constructor
  · exact (C6_amended_endpoint_resolver).1 "https://myorg.visualstudio.com/project"
      "https".data "myorg.visualstudio.com".data "/project".data (by decide)
      (by decide) (by decide) (by decide) (by decide)
      (Or.inr ⟨"project".data, by decide⟩)
  · exact (C6_amended_endpoint_resolver).2.1 "myorg.visualstudio.com" (by decide)
      (by decide)

/-- HTTP layer answering every request with one ref whose branch is
named refs/heads/x, so the full ref name is
refs/heads/refs/heads/x. -/
def oracleNestedRef : Oracle := fun _ =>
  .ok (.obj [("value", .arr [.obj [("name", .str "refs/heads/refs/heads/x"),
    ("objectId", .str "abc123")]])])

/-- C9 counterexample: for the ref named refs/heads/refs/heads/x (a
legal git ref, branch refs/heads/x), get_branches emits the Branch named
x, because replace removes every occurrence of refs/heads/, not just the
leading namespace prefix, under which the name would be
refs/heads/x. -/
theorem C9_counterexample :
    get_branches cfgTok "org/proj/repo" oracleNestedRef [] =
      (.ok [⟨"x", "abc123", false⟩],
        [⟨branchesUrl cfgTok "org" "proj" "repo", none, .GET⟩]) ∧
    ("refs/heads/refs/heads/x").drop ("refs/heads/").length = "refs/heads/x" ∧
    ("x" : String) ≠ "refs/heads/x" := by
  refine ⟨rfl, by decide, by decide⟩

/-- Behavior of the branch loop on well-shaped refs. -/
theorem buildBranches_wellformed (refs : List (String × String)) :
    buildBranches (refs.map fun r =>
        JVal.obj [("name", .str r.1), ("objectId", .str r.2)]) =
      .ok (refs.filterMap fun r =>
        let n := PyStr.pyReplace r.1 "refs/heads/" ""
        if n = "" then none else some ⟨n, r.2, false⟩) := by
  induction refs with
  | nil => rfl
  | cons r rest ih =>
    simp only [List.map_cons, buildBranches, JVal.pyGet, List.lookup,
      JVal.pyReplaceJ, pydanticStr, List.filterMap_cons]
    by_cases hn : PyStr.pyReplace r.1 "refs/heads/" "" = "" <;>
      simp [hn, ih, Bind.bind, Except.bind]

/-- C9 (amended): for well-shaped refs, get_branches emits one Branch
per ref whose name with every refs/heads/ occurrence removed is
nonempty, with that remainder as name, the ref objectId as commit_sha
and protected always false; refs whose name reduces to the empty string
are skipped. -/
theorem C9_amended_branch_shape (cfg : AzureDevOpsServiceImpl) (tok : String)
    (repository a b c : String) (o : Oracle) (t : List Req)
    (refs : List (String × String))
    (htok : cfg.token = some tok)
    (hsplit : PyStr.pySplit repository '/' = [a, b, c])
    (horacle : o ⟨branchesUrl cfg a b c, none, .GET⟩ =
      .ok (.obj [("value", .arr (refs.map fun r =>
        JVal.obj [("name", .str r.1), ("objectId", .str r.2)]))])) :
    get_branches cfg repository o t =
      (.ok (refs.filterMap fun r =>
        let n := PyStr.pyReplace r.1 "refs/heads/" ""
        if n = "" then none else some ⟨n, r.2, false⟩),
       t ++ [⟨branchesUrl cfg a b c, none, .GET⟩]) := by
  simp only [get_branches, hsplit, Mtry_eq, M_bind_eq, M_pure_eq, liftE,
    make_request_with_token cfg tok htok, horacle, JVal.pyGet, List.lookup]
  simp [JVal.pyIter, buildBranches_wellformed refs]

/-- Witness for the amended C9: one ordinary branch, one ref collapsing
to the empty name. -/
theorem C9_amended_witness :
    get_branches cfgTok "org/proj/repo"
      (fun _ => .ok (.obj [("value", .arr ([("refs/heads/main", "s1"),
        ("refs/heads/", "s2")].map fun r =>
          JVal.obj [("name", .str r.1), ("objectId", .str r.2)]))])) [] =
      (.ok ([("refs/heads/main", "s1"), ("refs/heads/", "s2")].filterMap fun r =>
        let n := PyStr.pyReplace r.1 "refs/heads/" ""
        if n = "" then none else some ⟨n, r.2, false⟩),
       [⟨branchesUrl cfgTok "org" "proj" "repo", none, .GET⟩]) := by
  exact C9_amended_branch_shape cfgTok "token123" "org/proj/repo" "org" "proj"
    "repo" _ [] [("refs/heads/main", "s1"), ("refs/heads/", "s2")] rfl
    (by decide) rfl

/-- Sufficient condition for the relation scan to pass over a relation
without issuing any request: the relation is an object whose rel field
is a string, and either the ArtifactLink marker is missing, or the url
field is a string failing one of the three checks of lines 376 to 382
(git/repositories marker, commits marker, a repositories segment with a
successor). -/
def relationNoMatch (relation : JVal) : Bool :=
  match relation with
  | .obj kvs =>
    match (kvs.lookup "rel").getD (.str "") with
    | .str rt =>
      if PyStr.substrOf "ArtifactLink" rt then
        match (kvs.lookup "url").getD (.str "") with
        | .str url =>
          if PyStr.substrOf "git/repositories" url then
            if PyStr.substrOf "commits" url then
              let parts := PyStr.pySplit url '/'
              if parts.contains "repositories" then
                decide (¬ (PyStr.listIndex parts "repositories" + 1 < parts.length))
              else true
            else true
          else true
        | _ => false
      else true
    | _ => false
  | _ => false

/-- The relation scan passes over a block of no-match relations. -/
theorem relationsLoop_skip_prefix (cfg : AzureDevOpsServiceImpl)
    (org_url project_name org_name : String) (pre rrest : List JVal)
    (h : ∀ r ∈ pre, relationNoMatch r = true) (o : Oracle) (t : List Req) :
    relationsLoop cfg org_url project_name org_name (pre ++ rrest) o t =
      relationsLoop cfg org_url project_name org_name rrest o t := by
  induction pre with
  | nil => rfl
  | cons r pre ih =>
    have hr := h r (List.mem_cons_self r pre)
    have hrest : ∀ x ∈ pre, relationNoMatch x = true := fun x hx =>
      h x (List.mem_cons_of_mem r hx)
    rw [List.cons_append]
    rcases r with s | n | b | _ | xs | kvs <;> simp [relationNoMatch] at hr
    rcases hrel : (kvs.lookup "rel").getD (.str "") with rts | n | b | _ | xs | kvs2 <;>
      rw [hrel] at hr <;> simp at hr
    by_cases hal : PyStr.substrOf "ArtifactLink" rts
    · rcases hr with h1 | hr
      · simp [hal] at h1
      rcases hurl : (kvs.lookup "url").getD (.str "") with urls | n | b | _ | xs | kvs3 <;>
        rw [hurl] at hr <;> simp at hr
      simp only [relationsLoop, M_bind_eq, M_pure_eq, liftE, JVal.pyGet, hrel,
        JVal.pyInStr, hal, if_true, hurl]
      rcases hr with hgr | hr
      · simp [hgr, liftE, M_bind_eq, M_pure_eq, ih hrest]
      · rcases hr with hcm | hr
        · by_cases hgr : PyStr.substrOf "git/repositories" urls <;>
            simp [hgr, hcm, liftE, M_bind_eq, M_pure_eq, ih hrest]
        · rcases hr with hmem | hlen
          · by_cases hgr : PyStr.substrOf "git/repositories" urls <;>
              by_cases hcm : PyStr.substrOf "commits" urls <;>
              simp [hgr, hcm, JVal.pySplitJ, hmem, liftE, M_bind_eq, M_pure_eq, ih hrest]
          · have hb : ¬ (PyStr.listIndex (PyStr.pySplit urls '/') "repositories" + 1 <
                (PyStr.pySplit urls '/').length) := by omega
            by_cases hgr : PyStr.substrOf "git/repositories" urls <;>
              by_cases hcm : PyStr.substrOf "commits" urls <;>
              by_cases hct : ("repositories" ∈ PyStr.pySplit urls '/') <;>
              simp [hgr, hcm, hct, JVal.pySplitJ, hb, liftE, M_bind_eq, M_pure_eq, ih hrest]
    · simp only [relationsLoop, M_bind_eq, M_pure_eq, liftE, JVal.pyGet, hrel,
        JVal.pyInStr, hal, if_false]
      simp [liftE, M_bind_eq, M_pure_eq, ih hrest]

/-- The name-collecting loop on well-shaped repository objects keeps
the truthy names in order. -/
theorem collectRepoNames_named (names : List String) :
    collectRepoNames (names.map fun nm => JVal.obj [("name", .str nm)]) =
      .ok ((names.filter (fun nm => nm ≠ "")).map JVal.str) := by
  induction names with
  | nil => rfl
  | cons nm rest ih =>
    by_cases hnm : nm = "" <;>
      simp [collectRepoNames, JVal.pyGet, JVal.truthy, hnm, ih, Bind.bind,
        Except.bind, List.filter_cons]

/-- The repository listing of a project on a well-shaped response:
one request, and the truthy names in response order. -/
theorem get_project_repositories_named (cfg : AzureDevOpsServiceImpl)
    (tok : String) (htok : cfg.token = some tok) (org_url project_name : String)
    (names : List String) (o : Oracle) (t : List Req)
    (horacle : o ⟨projectReposUrl org_url project_name, none, .GET⟩ =
      .ok (.obj [("value", .arr (names.map fun nm =>
        JVal.obj [("name", .str nm)]))])) :
    _get_project_repositories cfg org_url project_name o t =
      (.ok ((names.filter (fun nm => nm ≠ "")).map JVal.str),
       t ++ [⟨projectReposUrl org_url project_name, none, .GET⟩]) := by
  simp only [_get_project_repositories, Mtry_eq, M_bind_eq, M_pure_eq, liftE,
    make_request_with_token cfg tok htok, horacle, JVal.pyGet, List.lookup]
  simp [JVal.pyIter, collectRepoNames_named]

/-- A work item whose relations all fail the git-link checks and whose
project has no repositories gets no association; the only request made
is the repository listing. -/
theorem association_none_on_empty (cfg : AzureDevOpsServiceImpl) (tok : String)
    (org_url project_name org_name : String) (work_item : JVal) (rels : List JVal)
    (o : Oracle) (t : List Req)
    (htok : cfg.token = some tok)
    (hitem : work_item.pyGet "relations" (.arr []) = .ok (.arr rels))
    (hnm : ∀ r ∈ rels, relationNoMatch r = true)
    (hrepos : o ⟨projectReposUrl org_url project_name, none, .GET⟩ =
      .ok (.obj [("value", .arr [])])) :
    _get_work_item_repository_association cfg work_item org_url project_name
        org_name o t =
      (.ok none, t ++ [⟨projectReposUrl org_url project_name, none, .GET⟩]) := by
  have hloop := relationsLoop_skip_prefix cfg org_url project_name org_name
    rels [] hnm o t
  rw [List.append_nil] at hloop
  have hpr := get_project_repositories_named cfg tok htok org_url project_name
    [] o t (by simpa using hrepos)
  simp only [_get_work_item_repository_association, Mtry_eq, M_bind_eq, M_pure_eq,
    liftE, hitem, JVal.pyIter, hloop]
  simp [relationsLoop, M_bind_eq, M_pure_eq, hpr]

/-- C4: a work item whose relations contain no git commit artifact link
is associated with the first repository name, in list order, returned by
the list-repositories-for-project call (all names truthy); when that
call returns an empty list the item gets no association and
_process_work_items emits no SuggestedTask for it. -/
theorem C4_no_relation_fallback (cfg : AzureDevOpsServiceImpl) (tok : String)
    (org_url project_name org_name : String) (work_item : JVal) (rels : List JVal)
    (htok : cfg.token = some tok)
    (hitem : work_item.pyGet "relations" (.arr []) = .ok (.arr rels))
    (hnm : ∀ r ∈ rels, relationNoMatch r = true) :
    (∀ (o : Oracle) (t : List Req) (n0 : String) (ns : List String),
      (∀ x ∈ n0 :: ns, x ≠ "") →
      o ⟨projectReposUrl org_url project_name, none, .GET⟩ =
        .ok (.obj [("value", .arr ((n0 :: ns).map fun nm =>
          JVal.obj [("name", .str nm)]))]) →
      _get_work_item_repository_association cfg work_item org_url project_name
          org_name o t =
        (.ok (some (org_name ++ "/" ++ project_name ++ "/" ++ n0)),
         t ++ [⟨projectReposUrl org_url project_name, none, .GET⟩])) ∧
    (∀ (o : Oracle) (t : List Req),
      o ⟨projectReposUrl org_url project_name, none, .GET⟩ =
        .ok (.obj [("value", .arr [])]) →
      _get_work_item_repository_association cfg work_item org_url project_name
          org_name o t =
        (.ok none, t ++ [⟨projectReposUrl org_url project_name, none, .GET⟩])) ∧
    (∀ (o : Oracle) (t : List Req) (flds : List (String × JVal))
        (ids : List String) (suggested_tasks : List SuggestedTask),
      work_item.pyGet "fields" (.obj []) = .ok (.obj flds) →
      o ⟨workItemsBatchUrl org_url project_name (String.intercalate "," ids),
          none, .GET⟩ = .ok (.obj [("value", .arr [work_item])]) →
      o ⟨projectReposUrl org_url project_name, none, .GET⟩ =
        .ok (.obj [("value", .arr [])]) →
      _process_work_items cfg org_url project_name ids suggested_tasks o t =
        (.ok suggested_tasks,
         t ++ [⟨workItemsBatchUrl org_url project_name
            (String.intercalate "," ids), none, .GET⟩,
           ⟨projectReposUrl org_url project_name, none, .GET⟩])) := by
  refine ⟨?_, ?_, ?_⟩
  · intro o t n0 ns hne horacle
    have hloop := relationsLoop_skip_prefix cfg org_url project_name org_name
      rels [] hnm o t
    rw [List.append_nil] at hloop
    have hfil : (n0 :: ns).filter (fun nm => nm ≠ "") = n0 :: ns := by
      rw [List.filter_eq_self]
      intro a ha
      simpa using hne a ha
    have hpr := get_project_repositories_named cfg tok htok org_url project_name
      (n0 :: ns) o t horacle
    rw [hfil] at hpr
    simp only [_get_work_item_repository_association, Mtry_eq, M_bind_eq,
      M_pure_eq, liftE, hitem, JVal.pyIter, hloop]
    simp [relationsLoop, M_bind_eq, M_pure_eq, hpr, JVal.pyStr]
  · intro o t hrepos
    exact association_none_on_empty cfg tok org_url project_name org_name
      work_item rels o t htok hitem hnm hrepos
  · intro o t flds ids suggested_tasks hflds hbatch hrepos
    rcases work_item with s | n | b | _ | xs | kvsI
    · simp [JVal.pyGet] at hitem
    · simp [JVal.pyGet] at hitem
    · simp [JVal.pyGet] at hitem
    · simp [JVal.pyGet] at hitem
    · simp [JVal.pyGet] at hitem
    · have hassoc := association_none_on_empty cfg tok org_url project_name
        (orgNameFor cfg org_url) (JVal.obj kvsI) rels
        o (t ++ [⟨workItemsBatchUrl org_url project_name
          (String.intercalate "," ids), none, .GET⟩]) htok hitem hnm hrepos
      simp only [_process_work_items, Mtry_eq, M_bind_eq, M_pure_eq, liftE,
        make_request_with_token cfg tok htok, hbatch, JVal.pyGet, List.lookup]
      have hgd : (List.lookup "fields" kvsI).getD (JVal.obj []) = JVal.obj flds :=
        Except.ok.inj hflds
      simp [JVal.pyIter, hgd, hassoc, JVal.pyGet, workItemsLoop, Mtry_eq,
        M_bind_eq, M_pure_eq, liftE]

/-- Witness for C4: an item without relations, a project with two
repositories; the first one wins. -/
theorem C4_witness :
    _get_work_item_repository_association cfgTok
        (JVal.obj [("id", .num 123), ("fields", .obj [("System.Title", .str "T")])])
        "https://dev.azure.com/org" "proj" "org"
        (fun _ => .ok (.obj [("value", .arr [.obj [("name", .str "repo1")],
          .obj [("name", .str "repo2")]])])) [] =
      (.ok (some ("org" ++ "/" ++ "proj" ++ "/" ++ "repo1")),
       [⟨projectReposUrl "https://dev.azure.com/org" "proj", none, .GET⟩]) := by
  have h := (C4_no_relation_fallback cfgTok "token123" "https://dev.azure.com/org"
    "proj" "org"
    (JVal.obj [("id", .num 123), ("fields", .obj [("System.Title", .str "T")])])
    [] rfl rfl (by simp)).1
  exact h _ [] "repo1" ["repo2"] (by decide) rfl

/-- Position of the first occurrence in the index scan. -/
theorem listIndex_append (pA tail2 : List String)
    (hA : "repositories" ∉ pA) :
    PyStr.listIndex (pA ++ "repositories" :: tail2) "repositories" = pA.length := by
  induction pA with
  | nil => simp [PyStr.listIndex]
  | cons a pre ih =>
    have ha : ¬ (a = "repositories") := fun hh => hA (hh ▸ List.mem_cons_self a pre)
    have hA' : "repositories" ∉ pre := fun hm => hA (List.mem_cons_of_mem a hm)
    simp [PyStr.listIndex, ha, ih hA']

/-- Element just after the first occurrence. -/
theorem getD_after_first (pA : List String) (rid : String) (pB : List String) :
    (pA ++ "repositories" :: rid :: pB).getD (pA.length + 1) "" = rid := by
  induction pA with
  | nil => simp [List.getD]
  | cons a pre ih => simpa [List.getD] using ih

/-- C5: for a work item carrying an artifact link relation whose url has
the git/repositories and commits markers and a repositories segment
followed by rid (first occurrence), preceded by relations that fail the
checks, the association resolves the name by the repository-lookup-by-id
call for rid, and that is the only request issued — the project
repository list is never consulted; the resulting name is
org/project/resolved-name. -/
theorem C5_artifact_link_resolution (cfg : AzureDevOpsServiceImpl) (tok : String)
    (org_url project_name org_name : String) (work_item : JVal)
    (pre rrest : List JVal) (kvsR : List (String × JVal))
    (rt url rid rn : String) (pA pB : List String) (o : Oracle) (t : List Req)
    (htok : cfg.token = some tok)
    (hitem : work_item.pyGet "relations" (.arr []) =
      .ok (.arr (pre ++ JVal.obj kvsR :: rrest)))
    (hpre : ∀ r ∈ pre, relationNoMatch r = true)
    (hrt : (kvsR.lookup "rel").getD (.str "") = .str rt)
    (hal : PyStr.substrOf "ArtifactLink" rt = true)
    (hurl : (kvsR.lookup "url").getD (.str "") = .str url)
    (hgr : PyStr.substrOf "git/repositories" url = true)
    (hcm : PyStr.substrOf "commits" url = true)
    (hparts : PyStr.pySplit url '/' = pA ++ "repositories" :: rid :: pB)
    (hnorep : "repositories" ∉ pA)
    (hlookup : o ⟨repoByIdUrl org_url project_name rid, none, .GET⟩ =
      .ok (.obj [("name", .str rn)]))
    (hrn : rn ≠ "") :
    _get_work_item_repository_association cfg work_item org_url project_name
        org_name o t =
      (.ok (some (org_name ++ "/" ++ project_name ++ "/" ++ rn)),
       t ++ [⟨repoByIdUrl org_url project_name rid, none, .GET⟩]) := by
  have hloop := relationsLoop_skip_prefix cfg org_url project_name org_name pre
    (JVal.obj kvsR :: rrest) hpre o t
  have hmem : "repositories" ∈ PyStr.pySplit url '/' := by
    rw [hparts]
    exact List.mem_append_right _ (List.mem_cons_self _ _)
  have hidx : PyStr.listIndex (PyStr.pySplit url '/') "repositories" = pA.length := by
    rw [hparts]
    exact listIndex_append pA (rid :: pB) hnorep
  have hlt : pA.length + 1 < (PyStr.pySplit url '/').length := by
    rw [hparts]
    simp [List.length_append]
  have hgd : (PyStr.pySplit url '/').getD (pA.length + 1) "" = rid := by
    rw [hparts]
    exact getD_after_first pA rid pB
  have hge : ∀ hh : pA.length + 1 < (PyStr.pySplit url '/').length,
      (PyStr.pySplit url '/').get ⟨pA.length + 1, hh⟩ = rid := by
    intro hh
    have h2 := hgd
    rw [List.getD_eq_getElem?_getD, List.getElem?_eq_getElem hh] at h2
    simpa using h2
  simp only [List.get_eq_getElem] at hge
  have hname : ∀ t' : List Req,
      _get_repository_name_from_id cfg org_url project_name rid o t' =
        (.ok (.str rn), t' ++ [⟨repoByIdUrl org_url project_name rid, none, .GET⟩]) := by
    intro t'
    simp only [_get_repository_name_from_id, Mtry_eq, M_bind_eq, M_pure_eq, liftE,
      make_request_with_token cfg tok htok, hlookup, JVal.pyGet, List.lookup]
    simp
  simp only [_get_work_item_repository_association, Mtry_eq, M_bind_eq, M_pure_eq,
    liftE, hitem, JVal.pyIter, hloop]
  simp [relationsLoop, M_bind_eq, M_pure_eq, liftE, JVal.pyGet, hrt,
    JVal.pyInStr, hal, hurl, hgr, hcm, JVal.pySplitJ, hmem, hidx, hlt, hgd, hge,
    hname, JVal.truthy, hrn, JVal.pyStr]

/-- Witness for C5: one matching artifact link, resolved by the lookup
call alone. -/
theorem C5_witness :
    _get_work_item_repository_association cfgTok
        (JVal.obj [("relations", .arr [JVal.obj [("rel", .str "ArtifactLink"),
          ("url", .str "https://o.visualstudio.com/p/_apis/git/repositories/RID/commits/SHA")]])])
        "https://dev.azure.com/org" "proj" "org"
        (fun _ => .ok (.obj [("name", .str "myrepo")])) [] =
      (.ok (some ("org" ++ "/" ++ "proj" ++ "/" ++ "myrepo")),
       [⟨repoByIdUrl "https://dev.azure.com/org" "proj" "RID", none, .GET⟩]) := by
  exact C5_artifact_link_resolution cfgTok "token123" "https://dev.azure.com/org"
    "proj" "org" _ [] []
    [("rel", .str "ArtifactLink"),
      ("url", .str "https://o.visualstudio.com/p/_apis/git/repositories/RID/commits/SHA")]
    "ArtifactLink" "https://o.visualstudio.com/p/_apis/git/repositories/RID/commits/SHA"
    "RID" "myrepo"
    ["https:", "", "o.visualstudio.com", "p", "_apis", "git"] ["commits", "SHA"]
    _ [] rfl rfl (by simp) rfl (by decide) rfl (by decide) (by decide)
    (by decide) (by decide) rfl (by decide)

/-- Every repository the inner loop adds beyond the accumulator has its
id masked into the 31-bit range. -/
theorem buildRepos_range (run : PyRun) (org_name project_name : String) :
    ∀ (items : List JVal) (acc : List Repository),
      ∀ r ∈ (buildRepos run org_name project_name items acc).1,
        r ∈ acc ∨ (0 ≤ r.id ∧ r.id < 2147483648) := by
  intro items
  induction items with
  | nil => intro acc r hr; exact Or.inl hr
  | cons repo rest ih =>
    intro acc r hr
    simp only [buildRepos] at hr
    rcases h1 : repo.pyGet "id" (.str "") with e | repo_id_str <;> simp only [h1] at hr
    · exact Or.inl hr
    · rcases h2 : pyHashJ run repo_id_str with e | hv <;> simp only [h2] at hr
      · exact Or.inl hr
      · rcases h3 : repo.pyGet "name" (.str "") with e | nameJ <;> simp only [h3] at hr
        · exact Or.inl hr
        · rcases ih _ r hr with hmem | hrange
          · rcases List.mem_append.mp hmem with hacc | hnew
            · exact Or.inl hacc
            · refine Or.inr ?_
              have hr0 : r = ⟨hv % 2147483648,
                  org_name ++ "/" ++ project_name ++ "/" ++ JVal.pyStr nameJ,
                  .AZURE_DEVOPS, false⟩ := by simpa using hnew
              rw [hr0]
              refine ⟨Int.emod_nonneg hv (by decide), Int.emod_lt_of_pos hv (by decide)⟩
          · exact Or.inr hrange

/-- Every repository the project loop adds beyond the accumulator has
its id in the 31-bit range. -/
theorem processProjectsLoop_range (cfg : AzureDevOpsServiceImpl) (run : PyRun)
    (base_org_url : String) :
    ∀ (projects : List JVal) (acc : List Repository) (o : Oracle) (t : List Req)
      (lst : List Repository) (e : Option PyErr) (t1 : List Req),
      processProjectsLoop cfg run base_org_url projects acc o t = (.ok (lst, e), t1) →
      ∀ r ∈ lst, r ∈ acc ∨ (0 ≤ r.id ∧ r.id < 2147483648) := by
  intro projects
  induction projects with
  | nil =>
    intro acc o t lst e t1 h r hr
    simp only [processProjectsLoop, M_pure_eq] at h
    obtain ⟨h1, h2⟩ := by simpa using h
    rw [← h1.1] at hr
    exact Or.inl hr
  | cons project rest ih =>
    intro acc o t lst e t1 h r hr
    simp only [processProjectsLoop] at h
    rcases h1 : project.pyGet "id" .null with e1 | project_id <;> simp only [h1] at h
    · obtain ⟨hx, hy⟩ := by simpa using h
      rw [← hx.1] at hr
      exact Or.inl hr
    · rcases h2 : project.pyGet "name" .null with e2 | project_name <;> simp only [h2] at h
      · obtain ⟨hx, hy⟩ := by simpa using h
        rw [← hx.1] at hr
        exact Or.inl hr
      · by_cases h3 : (!project_id.truthy || !project_name.truthy) = true
        · rw [if_pos h3] at h
          exact ih acc o t lst e t1 h r hr
        · rw [if_neg h3] at h
          rcases h4 : _make_request cfg (base_org_url ++ "/" ++ JVal.pyStr project_name ++
              "/_apis/git/repositories?api-version=7.1-preview.1") none .GET o t with
            ⟨res4, t4⟩
          rw [h4] at h
          rcases res4 with e4 | repos_data
          · exact ih acc o t4 lst e t1 h r hr
          · rcases h5 : repos_data.pyGet "value" (.arr []) with e5 | v <;> simp only [h5] at h
            · exact ih acc o t4 lst e t1 h r hr
            · rcases h6 : v.pyIter with e6 | items <;> simp only [h6] at h
              · exact ih acc o t4 lst e t1 h r hr
              · rcases ih _ o t4 lst e t1 h r hr with hmem | hrange
                · rcases buildRepos_range run (orgNameFor cfg base_org_url)
                    (JVal.pyStr project_name) items acc r hmem with hacc | hrange2
                  · exact Or.inl hacc
                  · exact Or.inr hrange2
                · exact Or.inr hrange

/-- Every repository _process_projects adds beyond the caller's list has
its id in the 31-bit range. -/
theorem process_projects_range (cfg : AzureDevOpsServiceImpl) (run : PyRun)
    (projects_data : JVal) (repositories : List Repository) (base_org_url : String)
    (o : Oracle) (t : List Req) (lst : List Repository) (e : Option PyErr)
    (t1 : List Req)
    (h : _process_projects cfg run projects_data repositories base_org_url o t =
      (.ok (lst, e), t1)) :
    ∀ r ∈ lst, r ∈ repositories ∨ (0 ≤ r.id ∧ r.id < 2147483648) := by
  intro r hr
  simp only [_process_projects] at h
  rcases h1 : projects_data.pyGet "value" (.arr []) with e1 | v <;> simp only [h1] at h
  · obtain ⟨hx, hy⟩ := by simpa using h
    rw [← hx.1] at hr
    exact Or.inl hr
  · rcases h2 : v.pyIter with e2 | projects <;> simp only [h2] at h
    · obtain ⟨hx, hy⟩ := by simpa using h
      rw [← hx.1] at hr
      exact Or.inl hr
    · exact processProjectsLoop_range cfg run base_org_url projects repositories
        o t lst e t1 h r hr

/-- Every repository the organization loop adds beyond the accumulator
has its id in the 31-bit range. -/
theorem getRepositoriesOrgsLoop_range (cfg : AzureDevOpsServiceImpl) (run : PyRun) :
    ∀ (orgs : List JVal) (acc : List Repository) (o : Oracle) (t : List Req)
      (l : List Repository) (t1 : List Req),
      getRepositoriesOrgsLoop cfg run orgs acc o t = (.ok l, t1) →
      ∀ r ∈ l, r ∈ acc ∨ (0 ≤ r.id ∧ r.id < 2147483648) := by
  intro orgs
  induction orgs with
  | nil =>
    intro acc o t l t1 h r hr
    simp only [getRepositoriesOrgsLoop, M_pure_eq] at h
    obtain ⟨hx, hy⟩ := by simpa using h
    rw [← hx] at hr
    exact Or.inl hr
  | cons org rest ih =>
    intro acc o t l t1 h r hr
    simp only [getRepositoriesOrgsLoop, M_bind_eq, liftE] at h
    rcases h1 : org.pyGet "accountName" .null with e1 | nameJ <;> simp only [h1] at h
    · simp at h
    · by_cases h2 : (!nameJ.truthy) = true
      · rw [if_pos h2] at h
        exact ih acc o t l t1 h r hr
      · rw [if_neg h2] at h
        rcases h3 : _make_request cfg (cfg.base_url ++ "/" ++ JVal.pyStr nameJ ++
            "/_apis/projects?api-version=7.1-preview.4") none .GET o t with ⟨res3, t3⟩
        simp only [h3] at h
        rcases res3 with e3 | pd
        · exact ih acc o t3 l t1 h r hr
        · rcases h4 : _process_projects cfg run pd acc
              (cfg.base_url ++ "/" ++ JVal.pyStr nameJ) o t3 with ⟨res4, t4⟩
          simp only [h4] at h
          rcases res4 with e4 | pr
          · simp at h
          · rcases ih pr.1 o t4 l t1 h r hr with hmem | hrange
            · rcases process_projects_range cfg run pd acc
                (cfg.base_url ++ "/" ++ JVal.pyStr nameJ) o t3 pr.1 pr.2 t4
                (by rw [h4]) r hmem with hacc | hrange2
              · exact Or.inl hacc
              · exact Or.inr hrange2
            · exact Or.inr hrange

/-- C8 (amended): every Repository returned by get_repositories has an
id equal to the masked hash of the provider id string, lying in the
range 0 to 2^31 exclusive — zero included, so not strictly positive;
get_repository_details_from_repo_name does not hash at all (see the
counterexample): it passes the response id through integer coercion. -/
theorem C8_amended_hash_range (cfg : AzureDevOpsServiceImpl) (run : PyRun)
    (sort : String) (app_mode : AppMode) (o : Oracle) (t : List Req)
    (l : List Repository)
    (h : (get_repositories cfg run sort app_mode o t).1 = .ok l) :
    ∀ r ∈ l, 0 ≤ r.id ∧ r.id < 2147483648 := by
  intro r hr
  rcases hres : get_repositories cfg run sort app_mode o t with ⟨res, tr⟩
  rw [hres] at h
  simp only at h
  subst h
  simp only [get_repositories, Mtry_eq] at hres
  by_cases hb : cfg.base_url = "https://dev.azure.com"
  · rw [if_neg (by simp [hb])] at hres
    simp only [M_bind_eq] at hres
    rcases h1 : _make_request cfg (cfg.base_url ++
        "/_apis/accounts?api-version=7.1-preview.1") none .GET o t with ⟨res1, t1⟩
    simp only [h1] at hres
    rcases res1 with e1 | orgs_data
    · obtain ⟨hx, hy⟩ := by simpa [M_pure_eq] using hres
      subst hx
      simp at hr
    · simp only [liftE] at hres
      rcases h2 : orgs_data.pyGet "value" (.arr []) with e2 | v <;> simp only [h2] at hres
      · obtain ⟨hx, hy⟩ := by simpa [M_pure_eq] using hres
        subst hx
        simp at hr
      · rcases h3 : v.pyIter with e3 | orgs <;> simp only [h3] at hres
        · obtain ⟨hx, hy⟩ := by simpa [M_pure_eq] using hres
          subst hx
          simp at hr
        · rcases h4 : getRepositoriesOrgsLoop cfg run orgs [] o t1 with ⟨res4, t4⟩
          simp only [h4] at hres
          rcases res4 with e4 | l4
          · obtain ⟨hx, hy⟩ := by simpa [M_pure_eq] using hres
            subst hx
            simp at hr
          · obtain ⟨hx, hy⟩ := by simpa using hres
            subst hx
            rcases getRepositoriesOrgsLoop_range cfg run orgs [] o t1 l4 t4 h4 r hr
              with hacc | hrange
            · simp at hacc
            · exact hrange
  · rw [if_pos (by simp [hb])] at hres
    simp only [Mtry_eq, M_bind_eq] at hres
    rcases h1 : _make_request cfg (cfg.base_url ++
        "/_apis/projects?api-version=7.1-preview.4") none .GET o t with ⟨res1, t1⟩
    simp only [h1] at hres
    rcases res1 with e1 | pd
    · obtain ⟨hx, hy⟩ := by simpa [M_pure_eq] using hres
      subst hx
      simp at hr
    · rcases h2 : _process_projects cfg run pd [] cfg.base_url o t1 with ⟨res2, t2⟩
      simp only [h2] at hres
      rcases res2 with e2 | pr
      · obtain ⟨hx, hy⟩ := by simpa [M_pure_eq] using hres
        subst hx
        simp at hr
      · obtain ⟨hx, hy⟩ := by simpa using hres
        subst hx
        rcases process_projects_range cfg run pd [] cfg.base_url o t1 pr.1 pr.2 t2
          (by rw [h2]) r hr with hacc | hrange
        · simp at hacc
        · exact hrange

/-- Interpreter run whose string hash is constantly seven. -/
def runSeven : PyRun := ⟨fun _ => 7, 7⟩

/-- HTTP layer answering the single-repository lookup with a numeric
string id. -/
def oracleDetail42 : Oracle := fun _ =>
  .ok (.obj [("id", .str "42"), ("name", .str "repo")])

/-- HTTP layer answering every request with one object that serves both
as a project and as a repository record. -/
def oracleOneRepo : Oracle := fun _ =>
  .ok (.obj [("value", .arr [.obj [("id", .str "X"), ("name", .str "N")]])])

/-- C8 counterexample: get_repository_details_from_repo_name returns the
response id coerced, not hashed — under a run whose string hash is
constantly 7, every hash-derived id is 7, yet the returned id is 42; and
the repository walk can produce the id 0 (hash mask collapse), violating
strict positivity. -/
theorem C8_counterexample :
    (get_repository_details_from_repo_name cfgTok "org/proj/repo"
      oracleDetail42 []).1 =
      .ok ⟨42, "org/proj/repo", .AZURE_DEVOPS, false⟩ ∧
    runSeven.strHash "42" % 2147483648 ≠ 42 ∧
    (get_repositories cfgCustomTok runZero "pushed" .OSS oracleOneRepo []).1 =
      .ok [⟨0, "myorg/N/N", .AZURE_DEVOPS, false⟩] ∧
    ¬ ((0 : Int) < 0) := by
  refine ⟨rfl, ?_, rfl, by decide⟩
  show (7 : Int) % 2147483648 ≠ 42
  decide

/-- Witness for the amended C8 on the concrete walk that produces the
id 0. -/
theorem C8_amended_witness :
    0 ≤ (0 : Int) ∧ (0 : Int) < 2147483648 := by
  have h := C8_amended_hash_range cfgCustomTok runZero "pushed" .OSS oracleOneRepo
    [] [⟨0, "myorg/N/N", .AZURE_DEVOPS, false⟩] rfl
    ⟨0, "myorg/N/N", .AZURE_DEVOPS, false⟩ (List.mem_singleton.mpr rfl)
  exact h

/-- C2 counterexample: two runs (interpreter invocations with different
string-hash salts) over identical responses give lists differing in the
hash-derived id field, so the outputs are not element-by-element
identical across runs. -/
theorem C2_counterexample :
    (get_repositories cfgCustomTok runZero "pushed" .OSS oracleOneRepo []).1 =
      .ok [⟨0, "myorg/N/N", .AZURE_DEVOPS, false⟩] ∧
    (get_repositories cfgCustomTok runOne "pushed" .OSS oracleOneRepo []).1 =
      .ok [⟨1, "myorg/N/N", .AZURE_DEVOPS, false⟩] ∧
    ([⟨0, "myorg/N/N", .AZURE_DEVOPS, false⟩] : List Repository) ≠
      [⟨1, "myorg/N/N", .AZURE_DEVOPS, false⟩] :=
  ⟨rfl, rfl, by decide⟩

/-- Everything about a Repository except the hash-derived id. -/
def repoShape (r : Repository) : String × ProviderType × Bool :=
  (r.full_name, r.git_provider, r.is_public)

/-- The builtin hash model fails in the same way on every run. -/
theorem pyHashJ_cases (run1 run2 : PyRun) (j : JVal) :
    (∃ v1 v2, pyHashJ run1 j = .ok v1 ∧ pyHashJ run2 j = .ok v2) ∨
    (pyHashJ run1 j = .error .typeError ∧ pyHashJ run2 j = .error .typeError) := by
  cases j <;> simp [pyHashJ]

/-- The inner repository loop is run-independent except for the id
field. -/
theorem buildRepos_shape (run1 run2 : PyRun) (org proj : String) :
    ∀ (items : List JVal) (acc1 acc2 : List Repository),
      acc1.map repoShape = acc2.map repoShape →
      (buildRepos run1 org proj items acc1).1.map repoShape =
        (buildRepos run2 org proj items acc2).1.map repoShape ∧
      (buildRepos run1 org proj items acc1).2 =
        (buildRepos run2 org proj items acc2).2 := by
  intro items
  induction items with
  | nil => intro acc1 acc2 h; exact ⟨h, rfl⟩
  | cons repo rest ih =>
    intro acc1 acc2 h
    simp only [buildRepos]
    rcases h1 : repo.pyGet "id" (.str "") with e | ridJ <;> simp only [h1]
    · exact ⟨h, trivial⟩
    · rcases pyHashJ_cases run1 run2 ridJ with ⟨v1, v2, hv1, hv2⟩ | ⟨hv1, hv2⟩
      · simp only [hv1, hv2]
        rcases h2 : repo.pyGet "name" (.str "") with e | nameJ <;> simp only [h2]
        · exact ⟨h, trivial⟩
        · refine ih _ _ ?_
          simp [repoShape, h]
      · simp only [hv1, hv2]
        exact ⟨h, trivial⟩

/-- The project loop issues the same requests and differs only in the id
fields of the accumulated repositories. -/
theorem processProjectsLoop_shape (cfg : AzureDevOpsServiceImpl)
    (run1 run2 : PyRun) (burl : String) :
    ∀ (projects : List JVal) (acc1 acc2 : List Repository) (o : Oracle)
      (t : List Req),
      acc1.map repoShape = acc2.map repoShape →
      ∃ lst1 lst2 e t1,
        processProjectsLoop cfg run1 burl projects acc1 o t = (.ok (lst1, e), t1) ∧
        processProjectsLoop cfg run2 burl projects acc2 o t = (.ok (lst2, e), t1) ∧
        lst1.map repoShape = lst2.map repoShape := by
  intro projects
  induction projects with
  | nil =>
    intro acc1 acc2 o t h
    exact ⟨acc1, acc2, none, t, rfl, rfl, h⟩
  | cons project rest ih =>
    intro acc1 acc2 o t h
    simp only [processProjectsLoop]
    rcases h1 : project.pyGet "id" .null with e1 | project_id <;> simp only [h1]
    · exact ⟨acc1, acc2, some e1, t, rfl, rfl, h⟩
    · rcases h2 : project.pyGet "name" .null with e2 | project_name <;> simp only [h2]
      · exact ⟨acc1, acc2, some e2, t, rfl, rfl, h⟩
      · by_cases h3 : (!project_id.truthy || !project_name.truthy) = true
        · simp only [h3, if_true]
          exact ih acc1 acc2 o t h
        · simp only [h3, if_false]
          rcases h4 : _make_request cfg (burl ++ "/" ++ JVal.pyStr project_name ++
              "/_apis/git/repositories?api-version=7.1-preview.1") none .GET o t with
            ⟨res4, t4⟩
          rcases res4 with e4 | repos_data
          · exact ih acc1 acc2 o t4 h
          · rcases h5 : repos_data.pyGet "value" (.arr []) with e5 | v <;> simp only [h5]
            · exact ih acc1 acc2 o t4 h
            · rcases h6 : v.pyIter with e6 | items <;> simp only [h6]
              · exact ih acc1 acc2 o t4 h
              · exact ih _ _ o t4 (buildRepos_shape run1 run2
                  (orgNameFor cfg burl) (JVal.pyStr project_name) items acc1 acc2 h).1

/-- The _process_projects helper issues the same requests on every run
and differs only in the id fields. -/
theorem process_projects_shape (cfg : AzureDevOpsServiceImpl) (run1 run2 : PyRun)
    (projects_data : JVal) (acc1 acc2 : List Repository) (burl : String)
    (o : Oracle) (t : List Req)
    (h : acc1.map repoShape = acc2.map repoShape) :
    ∃ lst1 lst2 e t1,
      _process_projects cfg run1 projects_data acc1 burl o t = (.ok (lst1, e), t1) ∧
      _process_projects cfg run2 projects_data acc2 burl o t = (.ok (lst2, e), t1) ∧
      lst1.map repoShape = lst2.map repoShape := by
  simp only [_process_projects]
  rcases h1 : projects_data.pyGet "value" (.arr []) with e1 | v <;> simp only [h1]
  · exact ⟨acc1, acc2, some e1, t, rfl, rfl, h⟩
  · rcases h2 : v.pyIter with e2 | projects <;> simp only [h2]
    · exact ⟨acc1, acc2, some e2, t, rfl, rfl, h⟩
    · exact processProjectsLoop_shape cfg run1 run2 burl projects acc1 acc2 o t h

/-- The organization loop of get_repositories issues the same requests
on every run, fails identically, and differs only in id fields. -/
theorem getRepositoriesOrgsLoop_shape (cfg : AzureDevOpsServiceImpl)
    (run1 run2 : PyRun) :
    ∀ (orgs : List JVal) (acc1 acc2 : List Repository) (o : Oracle) (t : List Req),
      acc1.map repoShape = acc2.map repoShape →
      (∃ e t1, getRepositoriesOrgsLoop cfg run1 orgs acc1 o t = (.error e, t1) ∧
        getRepositoriesOrgsLoop cfg run2 orgs acc2 o t = (.error e, t1)) ∨
      (∃ l1 l2 t1, getRepositoriesOrgsLoop cfg run1 orgs acc1 o t = (.ok l1, t1) ∧
        getRepositoriesOrgsLoop cfg run2 orgs acc2 o t = (.ok l2, t1) ∧
        l1.map repoShape = l2.map repoShape) := by
  intro orgs
  induction orgs with
  | nil =>
    intro acc1 acc2 o t h
    exact Or.inr ⟨acc1, acc2, t, rfl, rfl, h⟩
  | cons org rest ih =>
    intro acc1 acc2 o t h
    simp only [getRepositoriesOrgsLoop, M_bind_eq, liftE]
    rcases h1 : org.pyGet "accountName" .null with e1 | nameJ <;> simp only [h1]
    · exact Or.inl ⟨e1, t, rfl, rfl⟩
    · by_cases h2 : (!nameJ.truthy) = true
      · simp only [h2, if_true]
        exact ih acc1 acc2 o t h
      · simp only [h2, Bool.false_eq_true, if_false]
        rcases h3 : _make_request cfg (cfg.base_url ++ "/" ++ JVal.pyStr nameJ ++
            "/_apis/projects?api-version=7.1-preview.4") none .GET o t with ⟨res3, t3⟩
        try simp only [h3]
        rcases res3 with e3 | pd
        · exact ih acc1 acc2 o t3 h
        · obtain ⟨lst1, lst2, e, t4, hp1, hp2, hsh⟩ := process_projects_shape cfg
            run1 run2 pd acc1 acc2 (cfg.base_url ++ "/" ++ JVal.pyStr nameJ) o t3 h
          simp only [hp1, hp2]
          exact ih lst1 lst2 o t4 hsh

/-- C2 (amended): within one run the walk is a pure function of the
responses; across two runs with identical responses the two
get_repositories outputs coincide in trace, error behavior, order and
every field except the hash-derived id, which varies with the salted
per-process string hash; runs agreeing on the hash function produce
identical outputs. -/
theorem C2_amended_run_independence (cfg : AzureDevOpsServiceImpl)
    (sort : String) (app_mode : AppMode) (o : Oracle) (t : List Req)
    (run1 run2 : PyRun) :
    (∃ l1 l2 t1,
      get_repositories cfg run1 sort app_mode o t = (.ok l1, t1) ∧
      get_repositories cfg run2 sort app_mode o t = (.ok l2, t1) ∧
      l1.map repoShape = l2.map repoShape) ∧
    (run1.strHash = run2.strHash → run1.noneHash = run2.noneHash →
      get_repositories cfg run1 sort app_mode o t =
        get_repositories cfg run2 sort app_mode o t) := by
  constructor
  · simp only [get_repositories, Mtry_eq, M_bind_eq, M_pure_eq]
    by_cases hb : cfg.base_url ≠ "https://dev.azure.com"
    · rw [if_pos hb, if_pos hb]
      simp only [Mtry_eq, M_bind_eq, M_pure_eq]
      rcases h1 : _make_request cfg (cfg.base_url ++
          "/_apis/projects?api-version=7.1-preview.4") none .GET o t with ⟨res1, t1⟩
      try simp only [h1]
      rcases res1 with e1 | pd
      · exact ⟨[], [], t1, rfl, rfl, rfl⟩
      · obtain ⟨lst1, lst2, e, t2, hp1, hp2, hsh⟩ := process_projects_shape cfg
          run1 run2 pd [] [] cfg.base_url o t1 rfl
        simp only [hp1, hp2]
        exact ⟨lst1, lst2, t2, rfl, rfl, hsh⟩
    · rw [if_neg hb, if_neg hb]
      simp only [M_bind_eq, M_pure_eq, liftE]
      rcases h1 : _make_request cfg (cfg.base_url ++
          "/_apis/accounts?api-version=7.1-preview.1") none .GET o t with ⟨res1, t1⟩
      try simp only [h1]
      rcases res1 with e1 | orgs_data
      · exact ⟨[], [], t1, rfl, rfl, rfl⟩
      · rcases h2 : orgs_data.pyGet "value" (.arr []) with e2 | v <;>
          (try simp only [h2])
        · exact ⟨[], [], t1, rfl, rfl, rfl⟩
        · rcases h3 : v.pyIter with e3 | orgs <;> (try simp only [h3])
          · exact ⟨[], [], t1, rfl, rfl, rfl⟩
          · rcases getRepositoriesOrgsLoop_shape cfg run1 run2 orgs [] [] o t1 rfl
              with ⟨e, t4, hl1, hl2⟩ | ⟨l1, l2, t4, hl1, hl2, hsh⟩
            · simp only [hl1, hl2]
              exact ⟨[], [], t4, rfl, rfl, rfl⟩
            · simp only [hl1, hl2]
              exact ⟨l1, l2, t4, rfl, rfl, hsh⟩
  · intro hs hn
    rcases run1 with ⟨f1, n1⟩
    rcases run2 with ⟨f2, n2⟩
    simp only at hs hn
    rw [hs, hn]

/-- Witness for the amended C2: two identical runs over a concrete
response give identical outputs. -/
theorem C2_amended_witness :
    runZero.strHash = runZero.strHash ∧
    get_repositories cfgCustomTok runZero "pushed" .OSS oracleOneRepo [] =
      get_repositories cfgCustomTok runZero "pushed" .OSS oracleOneRepo [] := by
  refine ⟨rfl, ?_⟩
  exact (C2_amended_run_independence cfgCustomTok "pushed" .OSS oracleOneRepo []
    runZero runZero).2 rfl rfl

end AzureDevOps
